import Mathlib

/-!
Verification of the session core of the oidc-demo web application.

The embedding covers `src/web/src/lib/crypto.ts` (class `CryptoSuite` together
with the cookie classes `AuthStateCookie`, `AccessTokenCookie`,
`RefreshTokenCookie`) and `src/web/src/lib/oidc.ts` (class `OIDC` and the
guards `isRealmConfig`, `isTokens`, `isExpiredSession`).

Modelling conventions:

* Byte strings are `List Nat` with entries below 256; character strings that
  the cipher layer manipulates are `List Char`.
* Node's `base64url` codec (`Buffer.toString` / `Buffer.from`) is implemented
  concretely: encoding is the standard unpadded base64url encoding; decoding
  is Node's lenient decoder, which skips characters outside the alphabet and
  drops trailing bits that do not fill a whole byte.
* The symmetric cipher selected by `createCipheriv` / `createDecipheriv` is an
  external primitive, modelled as a `CipherMode` record: a static
  `authenticated` flag (Node's runtime `getAuthTag`/`setAuthTag` probing
  succeeds exactly for authenticated modes, since both methods sit on the
  prototype of every cipher object and throw for non-authenticated modes), an
  iv-length and tag-length validity predicate, and the raw encrypt/decrypt
  functions.  The contracts the real modes satisfy (round-trip,
  tag-required-on-decrypt, authenticity) are stated as separate propositions
  and assumed as hypotheses where a theorem needs them.
* `cipher.update(data, in, out) + cipher.final(out)` is the base64url encoding
  of the full ciphertext: Node funnels the chunks through one stateful
  `StringDecoder`, so the chunked string concatenation equals the encoding of
  the concatenated bytes.
* Key validity (`createCipheriv` throws on a key of the wrong size) is a
  configuration-time concern ("Algorithm and key are fixed configuration")
  and is not modelled: the key argument is an opaque byte string.
-/

/-- Byte strings: each entry is one byte (kept below 256 by hypotheses). -/
abbrev Bytes := List Nat

/-- The 64 characters of the base64url alphabet in index order, as used by
Node for the `base64url` encoding (unpadded). -/
def b64Alphabet : List Char :=
  "ABCDEFGHIJKLMNOPQRSTUVWXYZabcdefghijklmnopqrstuvwxyz0123456789-_".toList

/-- Character encoding a 6-bit value. -/
def b64CharOf (n : Nat) : Char := b64Alphabet.getD n 'A'

/-- Unpadded base64url encoding of a byte string (Node `Buffer.prototype.toString`
with encoding `base64url`): groups of three bytes become four characters, a
trailing group of one or two bytes becomes two or three characters. -/
def b64urlEncode : Bytes → List Char
  | [] => []
  | [a] => [b64CharOf (a / 4), b64CharOf (a % 4 * 16)]
  | [a, b] => [b64CharOf (a / 4), b64CharOf (a % 4 * 16 + b / 16), b64CharOf (b % 16 * 4)]
  | a :: b :: c :: rest =>
      b64CharOf (a / 4) :: b64CharOf (a % 4 * 16 + b / 16) ::
        b64CharOf (b % 16 * 4 + c / 64) :: b64CharOf (c % 64) :: b64urlEncode rest

/-- Index of a character in the alphabet (`none` when it is not in it). -/
def b64ValAux : List Char → Nat → Char → Option Nat
  | [], _, _ => none
  | c :: rest, i, ch => if c = ch then some i else b64ValAux rest (i + 1) ch

/-- The 6-bit value of one base64url character. -/
def b64Val (ch : Char) : Option Nat := b64ValAux b64Alphabet 0 ch

/-- Byte string denoted by a list of 6-bit values: Node's decoder consumes the
values as a bit stream and drops the trailing bits that do not fill a byte. -/
def b64urlDecodeVals : List Nat → Bytes
  | [] => []
  | [_] => []
  | [a, b] => [a * 4 + b / 16]
  | [a, b, c] => [a * 4 + b / 16, b % 16 * 16 + c / 4]
  | a :: b :: c :: d :: rest =>
      (a * 4 + b / 16) :: (b % 16 * 16 + c / 4) :: (c % 4 * 64 + d) :: b64urlDecodeVals rest

/-- Node's lenient base64url decoding (`Buffer.from(s, "base64url")`):
characters outside the alphabet are skipped, trailing bits are dropped. -/
def b64urlDecode (s : List Char) : Bytes := b64urlDecodeVals (s.filterMap b64Val)

/-- JavaScript `combined.split(separator)` for a one-character separator:
always returns at least one part. -/
def splitOnSep (sep : Char) : List Char → List (List Char)
  | [] => [[]]
  | c :: rest =>
    match splitOnSep sep rest with
    | [] => [[]]
    | p :: ps => if c = sep then [] :: p :: ps else (c :: p) :: ps

/-- Joining segments with a separator (`parts.join(separator)`). -/
def combine (sep : Char) : List (List Char) → List Char
  | [] => []
  | [s] => s
  | s :: rest => s ++ sep :: combine sep rest

/-- A symmetric cipher/mode as selected by the `algorithm` configuration of
`CryptoSuite`.  `enc key iv plaintext` returns the ciphertext and the
authentication tag (the tag is meaningful only when `authenticated` is true);
`dec key iv ct tag?` returns the plaintext, `none` standing for the exceptions
thrown by `createDecipheriv`/`setAuthTag`/`final`.  `ivOk`/`tagLenOk` model the
length checks of `createDecipheriv` and `setAuthTag`. -/
structure CipherMode where
  authenticated : Bool
  ivOk : Nat → Bool
  tagLenOk : Nat → Bool
  enc : Bytes → Bytes → Bytes → Bytes × Bytes
  dec : Bytes → Bytes → Bytes → Option Bytes → Option Bytes

/-- The tag argument that decryption of a genuine encryption receives. -/
def tagOpt (m : CipherMode) (key iv p : Bytes) : Option Bytes :=
  if m.authenticated then some (m.enc key iv p).2 else none

/-- Functional correctness contract of a cipher mode: decrypting a genuine
encryption (with its tag, when the mode is authenticated) recovers the
plaintext. -/
def ModeRoundtrip (m : CipherMode) : Prop :=
  ∀ key iv p, m.dec key iv (m.enc key iv p).1 (tagOpt m key iv p) = some p

/-- Contract of authenticated modes: finalising a decipher on which no
authentication tag was set fails (Node throws in `decipher.final`). -/
def AuthRequiresTag (m : CipherMode) : Prop :=
  ∀ key iv ct, m.dec key iv ct none = none

/-- Authenticity contract of authenticated modes: decryption succeeds only on
the genuine ciphertext/tag pair of some plaintext for that key and iv. -/
def AuthSound (m : CipherMode) : Prop :=
  ∀ key iv ct tag p, m.dec key iv ct (some tag) = some p → m.enc key iv p = (ct, tag)

/-- `CryptoSuite.encrypt` (crypto.ts lines 31-43) at byte level: the freshly
generated iv is passed explicitly.  The combined output is
`base64url(iv) ++ sep ++ base64url(ct)`, with `++ sep ++ base64url(tag)`
appended exactly when the mode is authenticated (`getAuthTag` succeeds only
then; the `try`/`catch` around the probe yields `undefined` otherwise). -/
def CryptoSuite.encrypt (m : CipherMode) (key : Bytes) (sep : Char) (iv : Bytes)
    (data : Bytes) : List Char :=
  let ct := (m.enc key iv data).1
  let tag := (m.enc key iv data).2
  if m.authenticated then
    combine sep [b64urlEncode iv, b64urlEncode ct, b64urlEncode tag]
  else
    combine sep [b64urlEncode iv, b64urlEncode ct]

/-- `CryptoSuite.decrypt` (crypto.ts lines 45-53) at byte level.  The split
takes `parts[0]` as iv, `parts[1]` as ciphertext and `parts[2]` as tag; a
falsy (missing or empty) `parts[2]` means no tag.  Extra parts are ignored.
With fewer than two parts, `parts[1]` is `undefined` and `decipher.update`
throws.  `setAuthTag` is called whenever a tag is present — on every decipher
object the method exists on the prototype — and throws for non-authenticated
modes and for tags of invalid length.  `none` models a thrown exception. -/
def CryptoSuite.decrypt (m : CipherMode) (key : Bytes) (sep : Char)
    (combined : List Char) : Option Bytes :=
  match splitOnSep sep combined with
  | p0 :: p1 :: rest =>
    let iv := b64urlDecode p0
    let ct := b64urlDecode p1
    let tagPart : Option (List Char) :=
      match rest with
      | [] => none
      | t :: _ => if t = [] then none else some t
    if m.ivOk iv.length then
      match tagPart with
      | none => m.dec key iv ct none
      | some t =>
        let tag := b64urlDecode t
        if m.authenticated then
          if m.tagLenOk tag.length then m.dec key iv ct (some tag) else none
        else none
    else none
  | _ => none

lemma b64Val_b64CharOf_fin : ∀ n : Fin 64, b64Val (b64CharOf n.val) = some n.val := by decide

lemma b64Val_b64CharOf {n : Nat} (h : n < 64) : b64Val (b64CharOf n) = some n :=
  b64Val_b64CharOf_fin ⟨n, h⟩

lemma mem_b64Alphabet_b64CharOf_fin : ∀ n : Fin 64, b64CharOf n.val ∈ b64Alphabet := by decide

lemma mem_b64Alphabet_b64CharOf {n : Nat} (h : n < 64) : b64CharOf n ∈ b64Alphabet :=
  mem_b64Alphabet_b64CharOf_fin ⟨n, h⟩

/-- Decoding inverts encoding on genuine byte strings. -/
theorem b64url_roundtrip : ∀ bs : Bytes, (∀ x ∈ bs, x < 256) →
    b64urlDecode (b64urlEncode bs) = bs
  | [], _ => rfl
  | [a], hb => by
    have ha : a < 256 := hb a (by simp)
    have h1 : b64Val (b64CharOf (a / 4)) = some (a / 4) := b64Val_b64CharOf (by omega)
    have h2 : b64Val (b64CharOf (a % 4 * 16)) = some (a % 4 * 16) := b64Val_b64CharOf (by omega)
    simp only [b64urlDecode, b64urlEncode, List.filterMap_cons, h1, h2, List.filterMap_nil,
      b64urlDecodeVals, List.cons.injEq, and_true]
    omega
  | [a, b], hb => by
    have ha : a < 256 := hb a (by simp)
    have hb' : b < 256 := hb b (by simp)
    have h1 : b64Val (b64CharOf (a / 4)) = some (a / 4) := b64Val_b64CharOf (by omega)
    have h2 : b64Val (b64CharOf (a % 4 * 16 + b / 16)) = some (a % 4 * 16 + b / 16) :=
      b64Val_b64CharOf (by omega)
    have h3 : b64Val (b64CharOf (b % 16 * 4)) = some (b % 16 * 4) := b64Val_b64CharOf (by omega)
    simp only [b64urlDecode, b64urlEncode, List.filterMap_cons, h1, h2, h3, List.filterMap_nil,
      b64urlDecodeVals, List.cons.injEq, and_true]
    omega
  | a :: b :: c :: rest, hb => by
    have ha : a < 256 := hb a (by simp)
    have hb' : b < 256 := hb b (by simp)
    have hc : c < 256 := hb c (by simp)
    have hrest : ∀ x ∈ rest, x < 256 := fun x hx => hb x (by simp [hx])
    have h1 : b64Val (b64CharOf (a / 4)) = some (a / 4) := b64Val_b64CharOf (by omega)
    have h2 : b64Val (b64CharOf (a % 4 * 16 + b / 16)) = some (a % 4 * 16 + b / 16) :=
      b64Val_b64CharOf (by omega)
    have h3 : b64Val (b64CharOf (b % 16 * 4 + c / 64)) = some (b % 16 * 4 + c / 64) :=
      b64Val_b64CharOf (by omega)
    have h4 : b64Val (b64CharOf (c % 64)) = some (c % 64) := b64Val_b64CharOf (by omega)
    have ih := b64url_roundtrip rest hrest
    simp only [b64urlDecode] at ih
    simp only [b64urlDecode, b64urlEncode, List.filterMap_cons, h1, h2, h3, h4,
      b64urlDecodeVals, ih, List.cons.injEq]
    exact ⟨by omega, by omega, by omega, trivial⟩

/-- Every character emitted by the encoder is in the alphabet. -/
theorem mem_b64urlEncode : ∀ bs : Bytes, (∀ x ∈ bs, x < 256) →
    ∀ ch ∈ b64urlEncode bs, ch ∈ b64Alphabet
  | [], _ => by simp [b64urlEncode]
  | [a], hb => by
    have ha : a < 256 := hb a (by simp)
    intro ch hch
    simp only [b64urlEncode, List.mem_cons, List.not_mem_nil, or_false] at hch
    rcases hch with h | h <;> exact h ▸ mem_b64Alphabet_b64CharOf (by omega)
  | [a, b], hb => by
    have ha : a < 256 := hb a (by simp)
    have hb' : b < 256 := hb b (by simp)
    intro ch hch
    simp only [b64urlEncode, List.mem_cons, List.not_mem_nil, or_false] at hch
    rcases hch with h | h | h <;> exact h ▸ mem_b64Alphabet_b64CharOf (by omega)
  | a :: b :: c :: rest, hb => by
    have ha : a < 256 := hb a (by simp)
    have hb' : b < 256 := hb b (by simp)
    have hc : c < 256 := hb c (by simp)
    have hrest : ∀ x ∈ rest, x < 256 := fun x hx => hb x (by simp [hx])
    intro ch hch
    simp only [b64urlEncode, List.mem_cons] at hch
    rcases hch with h | h | h | h | h
    · exact h ▸ mem_b64Alphabet_b64CharOf (by omega)
    · exact h ▸ mem_b64Alphabet_b64CharOf (by omega)
    · exact h ▸ mem_b64Alphabet_b64CharOf (by omega)
    · exact h ▸ mem_b64Alphabet_b64CharOf (by omega)
    · exact mem_b64urlEncode rest hrest ch h

lemma b64urlEncode_ne_nil {bs : Bytes} (h : bs ≠ []) : b64urlEncode bs ≠ [] := by
  cases bs with
  | nil => exact absurd rfl h
  | cons a t =>
    cases t with
    | nil => simp [b64urlEncode]
    | cons b t2 =>
      cases t2 with
      | nil => simp [b64urlEncode]
      | cons c t3 => simp [b64urlEncode]

lemma splitOnSep_ne_nil (sep : Char) (s : List Char) : splitOnSep sep s ≠ [] := by
  induction s with
  | nil => simp [splitOnSep]
  | cons c rest ih =>
    simp only [splitOnSep]
    cases h : splitOnSep sep rest with
    | nil => simp
    | cons p ps => dsimp only; split <;> simp

lemma splitOnSep_no_sep {sep : Char} : ∀ {A : List Char}, sep ∉ A → splitOnSep sep A = [A] := by
  intro A
  induction A with
  | nil => intro _; rfl
  | cons c rest ih =>
    intro h
    have hc : ¬(c = sep) := fun he => h (he ▸ List.mem_cons_self c rest)
    have h' : sep ∉ rest := fun hm => h (List.mem_cons_of_mem _ hm)
    simp only [splitOnSep, ih h']
    simp [hc]

lemma splitOnSep_append {sep : Char} : ∀ {A : List Char} (B : List Char), sep ∉ A →
    splitOnSep sep (A ++ sep :: B) = A :: splitOnSep sep B := by
  intro A
  induction A with
  | nil =>
    intro B _
    simp only [List.nil_append, splitOnSep]
    cases hB : splitOnSep sep B with
    | nil => exact absurd hB (splitOnSep_ne_nil _ _)
    | cons p ps => simp
  | cons c rest ih =>
    intro B h
    have hc : ¬(c = sep) := fun he => h (he ▸ List.mem_cons_self c rest)
    have h' : sep ∉ rest := fun hm => h (List.mem_cons_of_mem _ hm)
    simp only [List.cons_append, splitOnSep, List.append_eq]
    rw [ih B h']
    simp [hc]

lemma sep_not_mem_encode {sep : Char} (hsep : sep ∉ b64Alphabet) {bs : Bytes}
    (hb : ∀ x ∈ bs, x < 256) : sep ∉ b64urlEncode bs :=
  fun hm => hsep (mem_b64urlEncode bs hb sep hm)

lemma combine_two (sep : Char) (A B : List Char) : combine sep [A, B] = A ++ sep :: B := rfl

lemma combine_three (sep : Char) (A B C : List Char) :
    combine sep [A, B, C] = A ++ sep :: (B ++ sep :: C) := rfl

lemma decrypt_two_parts (m : CipherMode) (key : Bytes) (sep : Char) (A B : List Char)
    (hA : sep ∉ A) (hB : sep ∉ B) :
    CryptoSuite.decrypt m key sep (A ++ sep :: B) =
      (if m.ivOk (b64urlDecode A).length then m.dec key (b64urlDecode A) (b64urlDecode B) none
       else none) := by
  unfold CryptoSuite.decrypt
  rw [splitOnSep_append _ hA, splitOnSep_no_sep hB]

lemma decrypt_three_parts (m : CipherMode) (key : Bytes) (sep : Char) (A B C : List Char)
    (hA : sep ∉ A) (hB : sep ∉ B) (hC : sep ∉ C) (hCne : C ≠ []) :
    CryptoSuite.decrypt m key sep (A ++ sep :: (B ++ sep :: C)) =
      (if m.ivOk (b64urlDecode A).length then
        if m.authenticated then
          if m.tagLenOk (b64urlDecode C).length then
            m.dec key (b64urlDecode A) (b64urlDecode B) (some (b64urlDecode C))
          else none
        else none
       else none) := by
  unfold CryptoSuite.decrypt
  rw [splitOnSep_append _ hA, splitOnSep_append _ hB, splitOnSep_no_sep hC]
  simp [hCne]

/-- C2: for every plaintext byte string `x`, every cipher mode satisfying the
round-trip contract, and every supported configuration (separator outside the
base64url alphabet, iv of a length the mode accepts, mode output made of
genuine bytes with a usable tag when authenticated),
`decrypt (encrypt x) = x`. -/
theorem encrypt_decrypt_roundtrip (m : CipherMode) (key : Bytes) (sep : Char) (iv x : Bytes)
    (hsep : sep ∉ b64Alphabet) (hiv : ∀ b ∈ iv, b < 256) (hivOk : m.ivOk iv.length = true)
    (hmode : ModeRoundtrip m) (hct : ∀ b ∈ (m.enc key iv x).1, b < 256)
    (htag : m.authenticated = true → (∀ b ∈ (m.enc key iv x).2, b < 256) ∧
      (m.enc key iv x).2 ≠ [] ∧ m.tagLenOk (m.enc key iv x).2.length = true) :
    CryptoSuite.decrypt m key sep (CryptoSuite.encrypt m key sep iv x) = some x := by
  have hIvSep : sep ∉ b64urlEncode iv := sep_not_mem_encode hsep hiv
  have hCtSep : sep ∉ b64urlEncode (m.enc key iv x).1 := sep_not_mem_encode hsep hct
  have hrt := hmode key iv x
  cases hA : m.authenticated with
  | true =>
    obtain ⟨htb, htne, htlen⟩ := htag hA
    have hTagSep : sep ∉ b64urlEncode (m.enc key iv x).2 := sep_not_mem_encode hsep htb
    simp only [CryptoSuite.encrypt, hA, if_true, combine_three]
    rw [decrypt_three_parts m key sep _ _ _ hIvSep hCtSep hTagSep (b64urlEncode_ne_nil htne)]
    rw [b64url_roundtrip iv hiv, b64url_roundtrip _ hct, b64url_roundtrip _ htb]
    simp only [hivOk, hA, htlen, if_true]
    simp only [tagOpt, hA, if_true] at hrt
    exact hrt
  | false =>
    simp only [CryptoSuite.encrypt, hA, Bool.false_eq_true, if_false, combine_two]
    rw [decrypt_two_parts m key sep _ _ hIvSep hCtSep]
    rw [b64url_roundtrip iv hiv, b64url_roundtrip _ hct]
    simp only [hivOk, if_true]
    simp only [tagOpt, hA, Bool.false_eq_true, if_false] at hrt
    exact hrt

/-- C3 (amended): with an authenticated mode, `decrypt` is sound at the level
of decoded bytes — it returns a plaintext only when the decoded
(iv, ciphertext, tag) triple is the genuine encryption of that plaintext under
the key — and a combined string whose tag segment is missing or empty never
decrypts.  (A single tampered character is only guaranteed to break decryption
when it changes the decoded bytes; see the counterexample.) -/
theorem decrypt_authenticated_sound (m : CipherMode) (key : Bytes) (sep : Char)
    (s : List Char) (hA : m.authenticated = true) (hsound : AuthSound m)
    (hreq : AuthRequiresTag m) :
    (∀ p, CryptoSuite.decrypt m key sep s = some p →
        m.enc key (b64urlDecode ((splitOnSep sep s).getD 0 [])) p =
          (b64urlDecode ((splitOnSep sep s).getD 1 []),
            b64urlDecode ((splitOnSep sep s).getD 2 []))) ∧
    (((splitOnSep sep s).getD 2 []) = [] → CryptoSuite.decrypt m key sep s = none) := by
  constructor
  · intro p hp
    unfold CryptoSuite.decrypt at hp
    cases hsp : splitOnSep sep s with
    | nil => exact absurd hsp (splitOnSep_ne_nil _ _)
    | cons p0 t =>
      rw [hsp] at hp
      cases t with
      | nil => exact absurd hp (by simp)
      | cons p1 rest =>
        simp only [List.getD_cons_zero, List.getD_cons_succ]
        cases rest with
        | nil =>
          dsimp only at hp
          split at hp
          · rw [hreq] at hp
            exact absurd hp (by simp)
          · exact absurd hp (by simp)
        | cons t more =>
          dsimp only at hp
          by_cases ht : t = []
          · rw [if_pos ht] at hp
            dsimp only at hp
            split at hp
            · rw [hreq] at hp
              exact absurd hp (by simp)
            · exact absurd hp (by simp)
          · rw [if_neg ht] at hp
            dsimp only at hp
            split at hp
            · split at hp
              · exact hsound _ _ _ _ _ hp
              · exact absurd hp (by simp)
            · exact absurd hp (by simp)
  · intro h2
    unfold CryptoSuite.decrypt
    cases hsp : splitOnSep sep s with
    | nil => exact absurd hsp (splitOnSep_ne_nil _ _)
    | cons p0 t =>
      rw [hsp] at h2
      cases t with
      | nil => rfl
      | cons p1 rest =>
        simp only [List.getD_cons_succ] at h2
        cases rest with
        | nil =>
          dsimp only
          split
          · exact hreq _ _ _
          · rfl
        | cons t more =>
          simp only [List.getD_cons_zero] at h2
          dsimp only
          split
          · exact hreq _ _ _
          · rfl

/-- A toy authenticated cipher satisfying all three mode contracts, used to
instantiate the general theorems on concrete data: encryption is the identity
on the ciphertext component and the tag is a one-byte checksum of key, iv and
ciphertext. -/
def toyTag (key iv ct : Bytes) : Bytes := [(key.sum + iv.sum + ct.sum) % 256]

def toyMode : CipherMode where
  authenticated := true
  ivOk n := n == 16
  tagLenOk n := n == 1
  enc key iv p := (p, toyTag key iv p)
  dec key iv ct tag? :=
    match tag? with
    | none => none
    | some tag => if tag = toyTag key iv ct then some ct else none

lemma toyMode_roundtrip : ModeRoundtrip toyMode := by
  intro key iv p
  simp [toyMode, tagOpt, toyTag]

lemma toyMode_requiresTag : AuthRequiresTag toyMode := by
  intro key iv ct; rfl

lemma toyMode_sound : AuthSound toyMode := by
  intro key iv ct tag p h
  simp only [toyMode] at h
  by_cases ht : tag = toyTag key iv ct
  · rw [if_pos ht] at h
    obtain rfl := Option.some.inj h
    simp [toyMode, ht]
  · rw [if_neg ht] at h
    exact absurd h (by simp)

/-- A 16-byte all-zero initialization vector. -/
def iv0 : Bytes := List.replicate 16 0

/-- Plaintext bytes of the string "hi". -/
def ctxPlain : Bytes := [104, 105]

/-- A genuine combined ciphertext produced by the toy mode. -/
def sEx3 : List Char := CryptoSuite.encrypt toyMode [] '.' iv0 ctxPlain

/-- The same combined string with the tag segment removed. -/
def sEx3NoTag : List Char := combine '.' [b64urlEncode iv0, b64urlEncode ctxPlain]

/-- `sEx3` with its final character changed from `Q` to `R`: the two
characters differ only in base64 trailing bits that Node's decoder drops. -/
def sEx3Tampered : List Char := sEx3.dropLast ++ ['R']

/-- Witness for C2: the toy mode on concrete data. -/
theorem encrypt_decrypt_roundtrip_witness :
    ('.' ∉ b64Alphabet) ∧ toyMode.ivOk iv0.length = true ∧
      CryptoSuite.decrypt toyMode [] '.' (CryptoSuite.encrypt toyMode [] '.' iv0 ctxPlain) =
        some ctxPlain :=
  ⟨by decide, by decide,
    encrypt_decrypt_roundtrip toyMode [] '.' iv0 ctxPlain (by decide) (by decide) (by decide)
      toyMode_roundtrip (by decide) (fun _ => ⟨by decide, by decide, by decide⟩)⟩

/-- Witness for C3: byte-level soundness and the missing-tag failure on
concrete data. -/
theorem decrypt_authenticated_sound_witness :
    toyMode.enc [] (b64urlDecode ((splitOnSep '.' sEx3).getD 0 [])) ctxPlain =
      (b64urlDecode ((splitOnSep '.' sEx3).getD 1 []),
        b64urlDecode ((splitOnSep '.' sEx3).getD 2 [])) ∧
    CryptoSuite.decrypt toyMode [] '.' sEx3NoTag = none :=
  ⟨(decrypt_authenticated_sound toyMode [] '.' sEx3 rfl toyMode_sound toyMode_requiresTag).1
      ctxPlain (by decide),
    (decrypt_authenticated_sound toyMode [] '.' sEx3NoTag rfl toyMode_sound
        toyMode_requiresTag).2 (by decide)⟩

/-- C3 counterexample: altering a single character of a genuine combined
ciphertext (its last character, `Q` to `R`) does not make decryption fail —
the altered character decodes to the same tag byte, because Node's base64url
decoder ignores trailing bits, so decryption still returns the plaintext. -/
theorem tampered_ciphertext_decrypts_counterexample :
    sEx3Tampered ≠ sEx3 ∧ sEx3Tampered.length = sEx3.length ∧
      ((sEx3.zip sEx3Tampered).countP fun q => !(q.1 == q.2)) = 1 ∧
      CryptoSuite.decrypt toyMode [] '.' sEx3Tampered = some ctxPlain := by
  decide

/-- A JSON value, as produced by `response.json()`.  (Responses whose bodies
are not JSON are outside the model.) -/
inductive Json where
  | null
  | bool (b : Bool)
  | num (n : Int)
  | str (s : String)
  | arr (elems : List Json)
  | obj (fields : List (String × Json))

/-- Property lookup on an object's field list; the last binding wins, as in
`JSON.parse`. -/
def Json.lookupLast : List (String × Json) → String → Option Json
  | [], _ => none
  | (k, v) :: rest, key =>
    match Json.lookupLast rest key with
    | some r => some r
    | none => if k = key then some v else none

/-- JavaScript property access `value[k]` for a data property. -/
def Json.getField : Json → String → Option Json
  | .obj fields, k => Json.lookupLast fields k
  | _, _ => none

def Json.asStr : Json → Option String
  | .str s => some s
  | _ => none

/-- The value of field `k` when it is present and a string. -/
def Json.strField (j : Json) (k : String) : Option String := (j.getField k).bind Json.asStr

/-- JavaScript `value !== null && typeof value === "object"` (arrays included,
primitives and null excluded). -/
def Json.isObjLike : Json → Bool
  | .obj _ => true
  | .arr _ => true
  | _ => false

/-- JavaScript `"k" in value && typeof value[k] === "string"`. -/
def hasStrField (j : Json) (k : String) : Bool := (j.strField k).isSome

/-- `isRealmConfig` (oidc.ts lines 294-305): requires the three endpoint
fields to be present string properties of a non-null object.  The `issuer`
field of the `RealmConfig` type is not checked. -/
def isRealmConfig (j : Json) : Bool :=
  j.isObjLike && hasStrField j "authorization_endpoint" && hasStrField j "token_endpoint" &&
    hasStrField j "end_session_endpoint"

/-- `isTokens` (oidc.ts lines 313-322): `access_token` and `refresh_token`
must be present string properties of a non-null object. -/
def isTokens (j : Json) : Bool :=
  j.isObjLike && hasStrField j "access_token" && hasStrField j "refresh_token"

/-- `isExpiredSession` (oidc.ts lines 276-286): HTTP 400 with the
distinguished Keycloak body.  (A strict-equality comparison with a string
constant can succeed only on a string field, so the object/`in` checks of the
source collapse into `strField`.) -/
def isExpiredSession (status : Nat) (j : Json) : Bool :=
  status == 400 && (j.strField "error" == some "invalid_grant") &&
    (j.strField "error_description" == some "Session not active")

/-- The decoded payload of a JWT, as far as the session core looks at it: the
optional `exp` claim (seconds since the epoch).  `jwt-decode` is an external
library; which strings decode is abstracted into a `JwtDecoder`. -/
structure Jwt where
  exp : Option Nat
deriving DecidableEq

/-- `jwtDecode`: `none` models the `InvalidTokenError` thrown on a string that
is not a decodable JWT. -/
abbrev JwtDecoder := String → Option Jwt

/-- Modelled from the spec: the base class `Cookie`
(`src/web/src/lib/Cookie.ts`, imported by the cookie classes but not among
the sources): three named browser-cookie slots, where reading returns the
stored string when the cookie is present, writing stores a string, and
deleting removes it.  The shared attributes (`SameSite=Lax`, `HttpOnly`,
`Secure`, `Path=/`) and the expiry attribute derived from the token's `exp`
claim configure the browser and do not influence the computations verified
here, so the state keeps only the three values. -/
structure CookieJar where
  authState : Option String
  accessToken : Option String
  refreshToken : Option String
deriving DecidableEq

/-- The `CryptoSuite` instance owned by `RefreshTokenCookie`, with the
algorithm and key fixed by environment configuration: an encryption function
(randomness fixed per call) and a partial decryption function (`none` models
a thrown exception). -/
structure CookieCrypto where
  enc : String → String
  dec : String → Option String

/-- A `CookieCrypto` built from a `CipherMode` through the byte-level
`CryptoSuite`, using a fixed iv; token strings are ASCII, so code points and
utf8 bytes coincide. -/
def strToBytes (s : String) : Bytes := s.toList.map Char.toNat

def bytesToStr (bs : Bytes) : String := String.mk (bs.map Char.ofNat)

def ccOfSuite (m : CipherMode) (key : Bytes) (sep : Char) (iv : Bytes) : CookieCrypto where
  enc s := String.mk (CryptoSuite.encrypt m key sep iv (strToBytes s))
  dec s := (CryptoSuite.decrypt m key sep s.toList).map bytesToStr

/-- JavaScript truthiness of a `string | undefined` value: `undefined` and the
empty string are falsy. -/
def truthy : Option String → Bool
  | none => false
  | some s => !(s == "")

/-- The error taxonomy of the session core, distinguished in the source by
error class and message. -/
inductive OidcError where
  | stateMismatch
  | tokenExchangeFailed
  | refreshFailed
  | configUnavailable
  | invalidToken
deriving DecidableEq

/-- `AccessTokenCookie.set` (crypto.ts lines 128-135): decodes the token (to
derive the cookie expiry) before storing the plain value; a non-decodable
token makes the write throw. -/
def AccessTokenCookie.set (d : JwtDecoder) (v : String) (jar : CookieJar) :
    Except OidcError CookieJar :=
  match d v with
  | none => .error .invalidToken
  | some _ => .ok { jar with accessToken := some v }

/-- `RefreshTokenCookie.set` (crypto.ts lines 155-161): decodes the token
first, then stores the encrypted value. -/
def RefreshTokenCookie.set (d : JwtDecoder) (cc : CookieCrypto) (v : String) (jar : CookieJar) :
    Except OidcError CookieJar :=
  match d v with
  | none => .error .invalidToken
  | some _ => .ok { jar with refreshToken := some (cc.enc v) }

/-- `RefreshTokenCookie.value` (crypto.ts lines 145-153): a present non-empty
cookie is decrypted, a decryption failure is caught and logged and becomes
`undefined`; a present empty cookie is returned as is (it is falsy, so the
guard skips decryption). -/
def RefreshTokenCookie.value (cc : CookieCrypto) (jar : CookieJar) : Option String :=
  match jar.refreshToken with
  | none => none
  | some v => if v = "" then some v else cc.dec v

/-- The per-request state of one `OIDC` instance: the cookie jar and the
memoized realm configuration (`#cachedConfig`). -/
structure OidcState where
  jar : CookieJar
  cachedConfig : Option Json

/-- A token-endpoint (or discovery) HTTP response: status and parsed body. -/
structure HttpResponse where
  status : Nat
  body : Json

/-- `Response.ok`: status in the inclusive range 200-299. -/
def HttpResponse.isOk (r : HttpResponse) : Bool := 200 ≤ r.status && r.status < 300

/-- The provider's behaviour during one operation: the parsed discovery
document and the token-endpoint response. -/
structure Env where
  discovery : Json
  token : HttpResponse

/-- The environment constants `BASE_URL`, `CLIENT_ID`, `CLIENT_SECRET`,
`REALM`. -/
structure AppConfig where
  baseUrl : String
  clientId : String
  clientSecret : String
  realm : String

/-- A network request issued by the session core. -/
inductive NetCall where
  | discoveryFetch
  | tokenPost (grant : String)
deriving DecidableEq

def NetCall.isDiscovery : NetCall → Bool
  | .discoveryFetch => true
  | _ => false

def NetCall.isRefreshPost : NetCall → Bool
  | .tokenPost g => g == "refresh_token"
  | _ => false

/-- Number of discovery-document fetches in a request log. -/
def discCount (log : List NetCall) : Nat := log.countP NetCall.isDiscovery

/-- A URL under construction: base plus `searchParams` entries. -/
structure UrlModel where
  base : String
  params : List (String × String)

/-- `OIDC.#getRealmConfig` (oidc.ts lines 207-217): fetch the discovery
document on a cache miss, validate, memoize on success.  Each operation's
result carries the final state and the log of network requests. -/
def OIDC.getRealmConfig (env : Env) (s : OidcState) :
    Except OidcError Json × OidcState × List NetCall :=
  match s.cachedConfig with
  | some c => (.ok c, s, [])
  | none =>
    if isRealmConfig env.discovery then
      (.ok env.discovery, { s with cachedConfig := some env.discovery }, [.discoveryFetch])
    else
      (.error .configUnavailable, s, [.discoveryFetch])

/-- `OIDC.#deleteTokens` (oidc.ts lines 95-98). -/
def OIDC.deleteTokens (jar : CookieJar) : CookieJar :=
  { jar with accessToken := none, refreshToken := none }

/-- `OIDC.isLoggedIn` (oidc.ts lines 77-79): `Boolean(this.#refreshToken)`. -/
def OIDC.isLoggedIn (cc : CookieCrypto) (jar : CookieJar) : Bool :=
  truthy (RefreshTokenCookie.value cc jar)

/-- Decode of one slot inside `getExpirations`: `x ? jwtDecode(x) : undefined`
(absent or empty values skip the decode; a present non-empty non-decodable
value throws). -/
def decodeIfTruthy (d : JwtDecoder) : Option String → Except OidcError (Option Jwt)
  | none => .ok none
  | some x =>
    if x = "" then .ok none
    else
      match d x with
      | none => .error .invalidToken
      | some j => .ok (some j)

/-- `atJwt?.exp ? new Date(atJwt.exp * 1000) : undefined`: a missing or zero
(falsy) `exp` claim yields no date; otherwise the epoch milliseconds. -/
def expMillis : Option Jwt → Option Nat
  | some j =>
    match j.exp with
    | some e => if e = 0 then none else some (1000 * e)
    | none => none
  | none => none

/-- `OIDC.getExpirations` (oidc.ts lines 54-70). -/
def OIDC.getExpirations (d : JwtDecoder) (cc : CookieCrypto) (jar : CookieJar) :
    Except OidcError (Option Nat × Option Nat) :=
  match decodeIfTruthy d jar.accessToken with
  | .error e => .error e
  | .ok atJwt =>
    match decodeIfTruthy d (RefreshTokenCookie.value cc jar) with
    | .error e => .error e
    | .ok rtJwt => .ok (expMillis atJwt, expMillis rtJwt)

/-- `OIDC.logout` (oidc.ts lines 84-93): delete both token cookies, then fetch
the realm configuration and build the end-session URL.  (WHATWG URL parsing
is abstracted: the end-session endpoint string becomes the URL base.) -/
def OIDC.logout (cfg : AppConfig) (env : Env) (s : OidcState) :
    Except OidcError UrlModel × OidcState × List NetCall :=
  let s1 : OidcState := { s with jar := OIDC.deleteTokens s.jar }
  match OIDC.getRealmConfig env s1 with
  | (.error e, s2, log) => (.error e, s2, log)
  | (.ok c, s2, log) =>
    (.ok { base := (c.strField "end_session_endpoint").getD "",
           params := [("post_logout_redirect_uri", cfg.baseUrl ++ "/"),
                      ("client_id", cfg.clientId)] }, s2, log)

/-- `OIDC.refresh` (oidc.ts lines 119-141).  The request body and the second
read of the refresh-token getter are folded into one read (cookie reads are
deterministic within a request). -/
def OIDC.refresh (cfg : AppConfig) (env : Env) (d : JwtDecoder) (cc : CookieCrypto)
    (s : OidcState) : Except OidcError Unit × OidcState × List NetCall :=
  let rtv := RefreshTokenCookie.value cc s.jar
  if truthy rtv = false then (.ok (), s, [])
  else
    match OIDC.getRealmConfig env s with
    | (.error e, s1, log) => (.error e, s1, log)
    | (.ok _, s1, log) =>
      let log1 := log ++ [NetCall.tokenPost "refresh_token"]
      let resp := env.token
      if isExpiredSession resp.status resp.body then
        (.ok (), { s1 with jar := OIDC.deleteTokens s1.jar }, log1)
      else if resp.isOk && isTokens resp.body then
        let a := (resp.body.strField "access_token").getD ""
        let r := (resp.body.strField "refresh_token").getD ""
        match AccessTokenCookie.set d a s1.jar with
        | .error e => (.error e, s1, log1)
        | .ok jar1 =>
          match RefreshTokenCookie.set d cc r jar1 with
          | .error e => (.error e, { s1 with jar := jar1 }, log1)
          | .ok jar2 => (.ok (), { s1 with jar := jar2 }, log1)
      else
        (.error .refreshFailed, s1, log1)

/-- `OIDC.getAccessToken` (oidc.ts lines 105-114). -/
def OIDC.getAccessToken (cfg : AppConfig) (env : Env) (d : JwtDecoder) (cc : CookieCrypto)
    (s : OidcState) : Except OidcError (Option String) × OidcState × List NetCall :=
  let current := s.jar.accessToken
  if truthy current then (.ok current, s, [])
  else
    match OIDC.refresh cfg env d cc s with
    | (.error e, s1, log) => (.error e, s1, log)
    | (.ok _, s1, log) => (.ok s1.jar.accessToken, s1, log)

/-- `OIDC.startLoginFlow` (oidc.ts lines 161-174): the generated random state
token is passed explicitly. -/
def OIDC.startLoginFlow (cfg : AppConfig) (env : Env) (stateToken : String) (s : OidcState) :
    Except OidcError UrlModel × OidcState × List NetCall :=
  let s1 : OidcState := { s with jar := { s.jar with authState := some stateToken } }
  match OIDC.getRealmConfig env s1 with
  | (.error e, s2, log) => (.error e, s2, log)
  | (.ok c, s2, log) =>
    (.ok { base := (c.strField "authorization_endpoint").getD "",
           params := [("client_id", cfg.clientId), ("response_type", "code"),
                      ("redirect_uri", cfg.baseUrl ++ "/login"), ("state", stateToken)] },
      s2, log)

/-- `OIDC.completeLoginFlow` (oidc.ts lines 183-200): `state === null ||
state !== this.#authState` throws; otherwise the code is exchanged at the
token endpoint and on success both tokens are stored and `"/"` returned. -/
def OIDC.completeLoginFlow (cfg : AppConfig) (env : Env) (d : JwtDecoder) (cc : CookieCrypto)
    (state : Option String) (code : String) (s : OidcState) :
    Except OidcError String × OidcState × List NetCall :=
  match state with
  | none => (.error .stateMismatch, s, [])
  | some st =>
    if s.jar.authState = some st then
      match OIDC.getRealmConfig env s with
      | (.error e, s1, log) => (.error e, s1, log)
      | (.ok _, s1, log) =>
        let log1 := log ++ [NetCall.tokenPost "authorization_code"]
        let resp := env.token
        if resp.isOk && isTokens resp.body then
          let a := (resp.body.strField "access_token").getD ""
          let r := (resp.body.strField "refresh_token").getD ""
          match AccessTokenCookie.set d a s1.jar with
          | .error e => (.error e, s1, log1)
          | .ok jar1 =>
            match RefreshTokenCookie.set d cc r jar1 with
            | .error e => (.error e, { s1 with jar := jar1 }, log1)
            | .ok jar2 => (.ok "/", { s1 with jar := jar2 }, log1)
        else
          (.error .tokenExchangeFailed, s1, log1)
    else
      (.error .stateMismatch, s, [])

/-- One public operation of the manager. -/
inductive Op where
  | start (stateToken : String)
  | complete (state : Option String) (code : String)
  | doRefresh
  | doLogout
  | getTok
deriving DecidableEq

def errOf : {α : Type} → Except OidcError α → Option OidcError
  | _, .ok _ => none
  | _, .error e => some e

/-- Execute one operation: final state, request log, error if any. -/
def runOp (cfg : AppConfig) (d : JwtDecoder) (cc : CookieCrypto) (env : Env) (op : Op)
    (s : OidcState) : OidcState × List NetCall × Option OidcError :=
  match op with
  | .start st =>
    match OIDC.startLoginFlow cfg env st s with
    | (r, s1, log) => (s1, log, errOf r)
  | .complete state code =>
    match OIDC.completeLoginFlow cfg env d cc state code s with
    | (r, s1, log) => (s1, log, errOf r)
  | .doRefresh =>
    match OIDC.refresh cfg env d cc s with
    | (r, s1, log) => (s1, log, errOf r)
  | .doLogout =>
    match OIDC.logout cfg env s with
    | (r, s1, log) => (s1, log, errOf r)
  | .getTok =>
    match OIDC.getAccessToken cfg env d cc s with
    | (r, s1, log) => (s1, log, errOf r)

/-- Execute a list of operations, each against its own provider behaviour;
returns the final state and the total number of discovery fetches. -/
def runTrace (cfg : AppConfig) (d : JwtDecoder) (cc : CookieCrypto) :
    List (Op × Env) → OidcState → OidcState × Nat
  | [], s => (s, 0)
  | (op, env) :: rest, s =>
    let r := runOp cfg d cc env op s
    let t := runTrace cfg d cc rest r.1
    (t.1, discCount r.2.1 + t.2)

/-- A fresh `OIDC` instance over an empty cookie jar. -/
def emptyState : OidcState := ⟨⟨none, none, none⟩, none⟩

/-- Concrete application configuration for witnesses. -/
def cfg0 : AppConfig :=
  { baseUrl := "https://app", clientId := "demo", clientSecret := "s3cret",
    realm := "https://idp/realms/demo" }

/-- Concrete decoder: every string is a decodable JWT except `"bad"` and the
empty string. -/
def d0 : JwtDecoder := fun s =>
  if s = "bad" then none else if s = "" then none else some { exp := some 1234567890 }

/-- Concrete cookie crypto: the toy authenticated suite with a fixed iv. -/
def cc0 : CookieCrypto := ccOfSuite toyMode [] '.' iv0

/-- A discovery document with the three checked endpoint fields. -/
def goodConfigJson : Json :=
  .obj [("authorization_endpoint", .str "https://idp/auth"),
        ("token_endpoint", .str "https://idp/token"),
        ("end_session_endpoint", .str "https://idp/logout")]

/-- A schema-valid token response body. -/
def tokensBody (a r : String) : Json :=
  .obj [("access_token", .str a), ("refresh_token", .str r)]

def envGood : Env :=
  { discovery := goodConfigJson, token := { status := 200, body := tokensBody "at1" "rt1" } }

def envBadTok : Env :=
  { discovery := goodConfigJson, token := { status := 200, body := tokensBody "at1" "bad" } }

def envExpired : Env :=
  { discovery := goodConfigJson,
    token := { status := 400,
               body := .obj [("error", .str "invalid_grant"),
                             ("error_description", .str "Session not active")] } }

def env500 : Env :=
  { discovery := goodConfigJson,
    token := { status := 500, body := .obj [("error", .str "server_error")] } }

def envBadDisc : Env :=
  { discovery := .null, token := { status := 200, body := tokensBody "at1" "rt1" } }

/-- A logged-in state: an encrypted refresh token is stored, nothing else. -/
def s0 : OidcState :=
  { jar := { authState := none, accessToken := none, refreshToken := some (cc0.enc "rt") },
    cachedConfig := none }

lemma grc_cached {env : Env} {s : OidcState} {c : Json} (h : s.cachedConfig = some c) :
    OIDC.getRealmConfig env s = (.ok c, s, []) := by
  unfold OIDC.getRealmConfig
  rw [h]

lemma grc_none_valid {env : Env} {s : OidcState} (h : s.cachedConfig = none)
    (hv : isRealmConfig env.discovery = true) :
    OIDC.getRealmConfig env s =
      (.ok env.discovery, { s with cachedConfig := some env.discovery }, [.discoveryFetch]) := by
  unfold OIDC.getRealmConfig
  rw [h]
  simp [hv]

lemma grc_none_invalid {env : Env} {s : OidcState} (h : s.cachedConfig = none)
    (hv : isRealmConfig env.discovery = false) :
    OIDC.getRealmConfig env s = (.error .configUnavailable, s, [.discoveryFetch]) := by
  unfold OIDC.getRealmConfig
  rw [h]
  simp [hv]

lemma grc_jar (env : Env) (s : OidcState) : (OIDC.getRealmConfig env s).2.1.jar = s.jar := by
  rcases s with ⟨jar, cached⟩
  cases cached with
  | some c => rfl
  | none =>
    unfold OIDC.getRealmConfig
    dsimp only
    split <;> rfl

lemma grc_result (env : Env) (s : OidcState) :
    (OIDC.getRealmConfig env s).1 = .error OidcError.configUnavailable ∨
      ∃ c, (OIDC.getRealmConfig env s).1 = .ok c := by
  rcases s with ⟨jar, cached⟩
  cases cached with
  | some c => exact Or.inr ⟨c, rfl⟩
  | none =>
    unfold OIDC.getRealmConfig
    dsimp only
    split
    · exact Or.inr ⟨_, rfl⟩
    · exact Or.inl rfl

lemma atc_set_error {d : JwtDecoder} {v : String} {jar : CookieJar} {e : OidcError}
    (h : AccessTokenCookie.set d v jar = .error e) : e = .invalidToken := by
  unfold AccessTokenCookie.set at h
  cases hd : d v <;> rw [hd] at h
  · exact (Except.error.inj h).symm
  · exact absurd h (by simp)

lemma rtc_set_error {d : JwtDecoder} {cc : CookieCrypto} {v : String} {jar : CookieJar}
    {e : OidcError} (h : RefreshTokenCookie.set d cc v jar = .error e) : e = .invalidToken := by
  unfold RefreshTokenCookie.set at h
  cases hd : d v <;> rw [hd] at h
  · exact (Except.error.inj h).symm
  · exact absurd h (by simp)

lemma atc_set_ok {d : JwtDecoder} {v : String} {jar jar' : CookieJar}
    (h : AccessTokenCookie.set d v jar = .ok jar') :
    jar' = { jar with accessToken := some v } ∧ ∃ j, d v = some j := by
  unfold AccessTokenCookie.set at h
  cases hd : d v <;> rw [hd] at h
  · exact absurd h (by simp)
  · exact ⟨(Except.ok.inj h).symm, _, rfl⟩

lemma rtc_set_ok {d : JwtDecoder} {cc : CookieCrypto} {v : String} {jar jar' : CookieJar}
    (h : RefreshTokenCookie.set d cc v jar = .ok jar') :
    jar' = { jar with refreshToken := some (cc.enc v) } ∧ ∃ j, d v = some j := by
  unfold RefreshTokenCookie.set at h
  cases hd : d v <;> rw [hd] at h
  · exact absurd h (by simp)
  · exact ⟨(Except.ok.inj h).symm, _, rfl⟩

lemma logout_state (cfg : AppConfig) (env : Env) (s : OidcState) :
    (OIDC.logout cfg env s).2.1 =
      (OIDC.getRealmConfig env { s with jar := OIDC.deleteTokens s.jar }).2.1 := by
  unfold OIDC.logout
  dsimp only
  rcases h : OIDC.getRealmConfig env { s with jar := OIDC.deleteTokens s.jar } with ⟨r, s2, log⟩
  cases r <;> rfl

/-- C6: `logout()` deletes both token cookies unconditionally before the
fallible realm-configuration fetch, so after every execution — the fetch
succeeding or not — neither token cookie is stored. -/
theorem logout_always_deletes_tokens (cfg : AppConfig) (env : Env) (s : OidcState) :
    (OIDC.logout cfg env s).2.1.jar.accessToken = none ∧
      (OIDC.logout cfg env s).2.1.jar.refreshToken = none := by
  rw [logout_state, grc_jar]
  exact ⟨rfl, rfl⟩

/-- C4 (amended): `isLoggedIn()` is true iff the refresh-token cookie is
present with a non-empty stored value that decrypts to a non-empty plaintext.
Decryption failures are absorbed by the cookie read (`RefreshTokenCookie.value`
is total and returns `none` for them), never thrown to the caller. -/
theorem isLoggedIn_iff (cc : CookieCrypto) (jar : CookieJar) :
    OIDC.isLoggedIn cc jar = true ↔
      ∃ v p, jar.refreshToken = some v ∧ v ≠ "" ∧ cc.dec v = some p ∧ p ≠ "" := by
  constructor
  · intro h
    unfold OIDC.isLoggedIn RefreshTokenCookie.value at h
    cases hrv : jar.refreshToken with
    | none => rw [hrv] at h; simp [truthy] at h
    | some v =>
      rw [hrv] at h
      dsimp only at h
      by_cases hv : v = ""
      · rw [if_pos hv] at h
        subst hv
        simp [truthy] at h
      · rw [if_neg hv] at h
        cases hdec : cc.dec v with
        | none => rw [hdec] at h; simp [truthy] at h
        | some p =>
          rw [hdec] at h
          refine ⟨v, p, rfl, hv, hdec, ?_⟩
          simp [truthy] at h
          exact h
  · rintro ⟨v, p, hrv, hv, hdec, hp⟩
    unfold OIDC.isLoggedIn RefreshTokenCookie.value
    rw [hrv]
    dsimp only
    rw [if_neg hv, hdec]
    simp [truthy, hp]

/-- A genuine encryption of the empty string under the cookie crypto. -/
def emptyCiphertext : String := cc0.enc ""

/-- C4 counterexample: a present refresh-token cookie whose value decrypts
successfully (to the empty string) for which `isLoggedIn()` is nevertheless
false — JavaScript truthiness conflates the empty plaintext with absence. -/
theorem isLoggedIn_empty_plaintext_counterexample :
    emptyCiphertext ≠ "" ∧ cc0.dec emptyCiphertext = some "" ∧
      OIDC.isLoggedIn cc0
        { authState := none, accessToken := none, refreshToken := some emptyCiphertext } =
        false := by
  refine ⟨by decide, by decide, by decide⟩

/-- C5 (amended): `completeLoginFlow(state, code)` fails with `StateMismatch`
(before any network activity) exactly when `state` is null or differs from the
stored CSRF cookie value; when `state` equals the stored value the flow
proceeds and whatever it returns is not a `StateMismatch`.  The empty string
mismatches whenever the stored value is non-empty (generated states always
are), but matches a stored empty value. -/
theorem completeLoginFlow_state_check (cfg : AppConfig) (env : Env) (d : JwtDecoder)
    (cc : CookieCrypto) (state : Option String) (code : String) (s : OidcState) :
    (state = none →
      OIDC.completeLoginFlow cfg env d cc state code s = (.error .stateMismatch, s, [])) ∧
    (∀ st, state = some st → s.jar.authState ≠ some st →
      OIDC.completeLoginFlow cfg env d cc state code s = (.error .stateMismatch, s, [])) ∧
    (∀ st, state = some st → s.jar.authState = some st →
      (OIDC.completeLoginFlow cfg env d cc state code s).1 ≠ .error .stateMismatch) := by
  refine ⟨?_, ?_, ?_⟩
  · rintro rfl
    rfl
  · rintro st rfl hne
    unfold OIDC.completeLoginFlow
    dsimp only
    rw [if_neg hne]
  · rintro st rfl heq
    unfold OIDC.completeLoginFlow
    dsimp only
    rw [if_pos heq]
    rcases hr : OIDC.getRealmConfig env s with ⟨r, s1, log⟩
    have hre := grc_result env s
    rw [hr] at hre
    cases r with
    | error e =>
      dsimp only
      rcases hre with hh | ⟨c, hh⟩
      · have he : e = OidcError.configUnavailable := Except.error.inj hh
        subst he
        simp
      · exact absurd hh (by simp)
    | ok c =>
      dsimp only
      split
      · cases hset : AccessTokenCookie.set d ((env.token.body.strField "access_token").getD "")
            s1.jar with
        | error e2 =>
          have he2 := atc_set_error hset
          subst he2
          simp
        | ok jar1 =>
          cases hset2 : RefreshTokenCookie.set d cc
              ((env.token.body.strField "refresh_token").getD "") jar1 with
          | error e3 =>
            have he3 := rtc_set_error hset2
            subst he3
            dsimp only
            rw [hset2]
            simp
          | ok jar2 =>
            dsimp only
            rw [hset2]
            simp
      · simp

/-- A state in which the stored CSRF cookie value is the empty string. -/
def sEmptyCsrf : OidcState :=
  { jar := { authState := some "", accessToken := none, refreshToken := none },
    cachedConfig := none }

/-- A state right after `startLoginFlow` generated the state token `"st"`. -/
def sAwait : OidcState :=
  { jar := { authState := some "st", accessToken := none, refreshToken := none },
    cachedConfig := none }

/-- C5 counterexample: with a stored CSRF cookie value that is the empty
string, an empty `state` argument passes the check and the flow completes —
it does not fail with `StateMismatch` as the claim requires for every stored
value. -/
theorem empty_state_matches_empty_cookie_counterexample :
    sEmptyCsrf.jar.authState = some "" ∧
      (OIDC.completeLoginFlow cfg0 envGood d0 cc0 (some "") "c" sEmptyCsrf).1 = .ok "/" := by
  exact ⟨rfl, rfl⟩

/-- Witness for C5: each branch at concrete inputs. -/
theorem completeLoginFlow_state_check_witness :
    OIDC.completeLoginFlow cfg0 envGood d0 cc0 none "c" s0 = (.error .stateMismatch, s0, []) ∧
    OIDC.completeLoginFlow cfg0 envGood d0 cc0 (some "x") "c" s0 =
      (.error .stateMismatch, s0, []) ∧
    (OIDC.completeLoginFlow cfg0 envGood d0 cc0 (some "st") "c" sAwait).1 ≠
      .error .stateMismatch :=
  ⟨(completeLoginFlow_state_check cfg0 envGood d0 cc0 none "c" s0).1 rfl,
   (completeLoginFlow_state_check cfg0 envGood d0 cc0 (some "x") "c" s0).2.1 "x" rfl
     (by decide),
   (completeLoginFlow_state_check cfg0 envGood d0 cc0 (some "st") "c" sAwait).2.2 "st" rfl rfl⟩

lemma isOk_not_expired {r : HttpResponse} (h : r.isOk = true) :
    isExpiredSession r.status r.body = false := by
  unfold HttpResponse.isOk at h
  simp only [Bool.and_eq_true, decide_eq_true_eq] at h
  have h4 : (r.status == 400) = false := by
    have : ¬ r.status = 400 := by omega
    simpa using this
  unfold isExpiredSession
  rw [h4]
  simp

/-- C1 (amended): provided the realm configuration is obtainable (memoized or
valid discovery), `refresh()` behaves as follows.  (1) With no usable stored
refresh token (absent cookie, failed decryption, or empty value) it is a
no-op: no request, no error, state unchanged.  Otherwise it sends the
refresh-grant request and: (2) on the distinguished HTTP 400
"session not active" response it deletes both token cookies and returns
normally; (3) on any other non-success or schema-invalid response it fails
with `RefreshFailed` and leaves the cookie jar unchanged; (4) on a schema
valid success whose two tokens are decodable JWTs it overwrites both cookies
with the returned pair.  (When a returned token is not a decodable JWT a
fourth outcome occurs — see the counterexample.) -/
theorem refresh_outcomes (cfg : AppConfig) (env : Env) (d : JwtDecoder) (cc : CookieCrypto)
    (s : OidcState)
    (hcfg : s.cachedConfig.isSome = true ∨ isRealmConfig env.discovery = true) :
    (truthy (RefreshTokenCookie.value cc s.jar) = false →
      OIDC.refresh cfg env d cc s = (.ok (), s, [])) ∧
    (truthy (RefreshTokenCookie.value cc s.jar) = true →
      (isExpiredSession env.token.status env.token.body = true →
        (OIDC.refresh cfg env d cc s).1 = .ok () ∧
        (OIDC.refresh cfg env d cc s).2.1.jar.accessToken = none ∧
        (OIDC.refresh cfg env d cc s).2.1.jar.refreshToken = none) ∧
      (isExpiredSession env.token.status env.token.body = false →
        (env.token.isOk = false ∨ isTokens env.token.body = false) →
        (OIDC.refresh cfg env d cc s).1 = .error .refreshFailed ∧
        (OIDC.refresh cfg env d cc s).2.1.jar = s.jar) ∧
      (env.token.isOk = true → isTokens env.token.body = true →
        ∀ a r, env.token.body.strField "access_token" = some a →
          env.token.body.strField "refresh_token" = some r →
          (d a).isSome = true → (d r).isSome = true →
          (OIDC.refresh cfg env d cc s).1 = .ok () ∧
          (OIDC.refresh cfg env d cc s).2.1.jar.accessToken = some a ∧
          (OIDC.refresh cfg env d cc s).2.1.jar.refreshToken = some (cc.enc r))) := by
  have hrc : ∃ cJson s1 glog, OIDC.getRealmConfig env s = (.ok cJson, s1, glog) ∧
      s1.jar = s.jar := by
    rcases hcfg with hc | hv
    · obtain ⟨c, hc'⟩ := Option.isSome_iff_exists.mp hc
      exact ⟨c, s, [], grc_cached hc', rfl⟩
    · cases hcache : s.cachedConfig with
      | some c => exact ⟨c, s, [], grc_cached hcache, rfl⟩
      | none => exact ⟨env.discovery, _, _, grc_none_valid hcache hv, rfl⟩
  obtain ⟨cJson, s1, glog, hgrc, hjar⟩ := hrc
  refine ⟨?_, fun ht => ?_⟩
  · intro hf
    unfold OIDC.refresh
    dsimp only
    split
    · rfl
    · rename_i hco
      exact absurd hf hco
  · have hmain : OIDC.refresh cfg env d cc s =
        (if isExpiredSession env.token.status env.token.body then
          (.ok (), { s1 with jar := OIDC.deleteTokens s1.jar },
            glog ++ [NetCall.tokenPost "refresh_token"])
        else if env.token.isOk && isTokens env.token.body then
          (match AccessTokenCookie.set d ((env.token.body.strField "access_token").getD "")
              s1.jar with
          | .error e => (.error e, s1, glog ++ [NetCall.tokenPost "refresh_token"])
          | .ok jar1 =>
            match RefreshTokenCookie.set d cc
                ((env.token.body.strField "refresh_token").getD "") jar1 with
            | .error e => (.error e, { s1 with jar := jar1 },
                glog ++ [NetCall.tokenPost "refresh_token"])
            | .ok jar2 => (.ok (), { s1 with jar := jar2 },
                glog ++ [NetCall.tokenPost "refresh_token"]))
        else (.error .refreshFailed, s1, glog ++ [NetCall.tokenPost "refresh_token"])) := by
      unfold OIDC.refresh
      dsimp only
      split
      · rename_i hco
        rw [ht] at hco
        exact absurd hco (by simp)
      · rw [hgrc]
    refine ⟨fun hexp => ?_, fun hnexp hbad => ?_, fun hok htok a r hfa hfr hda hdr => ?_⟩
    · rw [hmain, if_pos hexp]
      exact ⟨rfl, rfl, rfl⟩
    · rw [hmain, if_neg (by simp [hnexp]),
        if_neg (by rcases hbad with h | h <;> simp [h])]
      exact ⟨rfl, hjar⟩
    · have hnexp := isOk_not_expired hok
      obtain ⟨ja, hja⟩ := Option.isSome_iff_exists.mp hda
      obtain ⟨jr, hjr⟩ := Option.isSome_iff_exists.mp hdr
      have hset1 : AccessTokenCookie.set d a s1.jar =
          .ok { s1.jar with accessToken := some a } := by
        unfold AccessTokenCookie.set
        rw [hja]
      have hset2 : RefreshTokenCookie.set d cc r { s1.jar with accessToken := some a } =
          .ok { s1.jar with accessToken := some a, refreshToken := some (cc.enc r) } := by
        unfold RefreshTokenCookie.set
        rw [hjr]
      rw [hmain, if_neg (by simp [hnexp]), if_pos (by simp [hok, htok]), hfa, hfr]
      simp only [Option.getD_some]
      rw [hset1]
      dsimp only
      rw [hset2]
      exact ⟨rfl, rfl, rfl⟩

/-- Witness for C1: each of the four refresh outcomes at concrete inputs. -/
theorem refresh_outcomes_witness :
    OIDC.refresh cfg0 envGood d0 cc0 emptyState = (.ok (), emptyState, []) ∧
    ((OIDC.refresh cfg0 envExpired d0 cc0 s0).1 = .ok () ∧
      (OIDC.refresh cfg0 envExpired d0 cc0 s0).2.1.jar.accessToken = none ∧
      (OIDC.refresh cfg0 envExpired d0 cc0 s0).2.1.jar.refreshToken = none) ∧
    ((OIDC.refresh cfg0 env500 d0 cc0 s0).1 = .error .refreshFailed ∧
      (OIDC.refresh cfg0 env500 d0 cc0 s0).2.1.jar = s0.jar) ∧
    ((OIDC.refresh cfg0 envGood d0 cc0 s0).1 = .ok () ∧
      (OIDC.refresh cfg0 envGood d0 cc0 s0).2.1.jar.accessToken = some "at1" ∧
      (OIDC.refresh cfg0 envGood d0 cc0 s0).2.1.jar.refreshToken = some (cc0.enc "rt1")) :=
  ⟨(refresh_outcomes cfg0 envGood d0 cc0 emptyState (Or.inr (by decide))).1 (by decide),
   ((refresh_outcomes cfg0 envExpired d0 cc0 s0 (Or.inr (by decide))).2 (by decide)).1
     (by decide),
   ((refresh_outcomes cfg0 env500 d0 cc0 s0 (Or.inr (by decide))).2 (by decide)).2.1
     (by decide) (Or.inl (by decide)),
   ((refresh_outcomes cfg0 envGood d0 cc0 s0 (Or.inr (by decide))).2 (by decide)).2.2
     (by decide) (by decide) "at1" "rt1" (by decide) (by decide) (by decide) (by decide)⟩

/-- C1 counterexample.  First part: a schema-valid successful response whose
refresh token is not a decodable JWT produces a fourth outcome — `refresh()`
throws the token-decode error (not `RefreshFailed`) after having already
overwritten the access-token cookie.  Second part: with no memoized
configuration and an invalid discovery document, `refresh()` fails with
`ConfigUnavailable` before any refresh-grant request is sent. -/
theorem refresh_fourth_outcome_counterexample :
    envBadTok.token.isOk = true ∧ isTokens envBadTok.token.body = true ∧
      (OIDC.refresh cfg0 envBadTok d0 cc0 s0).1 = .error .invalidToken ∧
      OidcError.invalidToken ≠ OidcError.refreshFailed ∧
      s0.jar.accessToken = none ∧
      (OIDC.refresh cfg0 envBadTok d0 cc0 s0).2.1.jar.accessToken = some "at1" ∧
      (OIDC.refresh cfg0 envBadTok d0 cc0 s0).2.1.jar.refreshToken = s0.jar.refreshToken ∧
      (OIDC.refresh cfg0 envBadDisc d0 cc0 s0).1 = .error .configUnavailable ∧
      (OIDC.refresh cfg0 envBadDisc d0 cc0 s0).2.2.countP NetCall.isRefreshPost = 0 :=
  ⟨rfl, rfl, rfl, by decide, rfl, rfl, rfl, rfl, rfl⟩

/-- The token-response handling tail of `refresh()` (everything after the
refresh-grant request was sent), factored out for reuse in proofs. -/
def afterToken (d : JwtDecoder) (cc : CookieCrypto) (resp : HttpResponse) (s1 : OidcState)
    (log1 : List NetCall) : Except OidcError Unit × OidcState × List NetCall :=
  if isExpiredSession resp.status resp.body then
    (.ok (), { s1 with jar := OIDC.deleteTokens s1.jar }, log1)
  else if resp.isOk && isTokens resp.body then
    match AccessTokenCookie.set d ((resp.body.strField "access_token").getD "") s1.jar with
    | .error e => (.error e, s1, log1)
    | .ok jar1 =>
      match RefreshTokenCookie.set d cc ((resp.body.strField "refresh_token").getD "") jar1 with
      | .error e => (.error e, { s1 with jar := jar1 }, log1)
      | .ok jar2 => (.ok (), { s1 with jar := jar2 }, log1)
  else (.error .refreshFailed, s1, log1)

/-- The token-response handling tail of `completeLoginFlow()`. -/
def afterExchange (d : JwtDecoder) (cc : CookieCrypto) (resp : HttpResponse) (s1 : OidcState)
    (log1 : List NetCall) : Except OidcError String × OidcState × List NetCall :=
  if resp.isOk && isTokens resp.body then
    match AccessTokenCookie.set d ((resp.body.strField "access_token").getD "") s1.jar with
    | .error e => (.error e, s1, log1)
    | .ok jar1 =>
      match RefreshTokenCookie.set d cc ((resp.body.strField "refresh_token").getD "") jar1 with
      | .error e => (.error e, { s1 with jar := jar1 }, log1)
      | .ok jar2 => (.ok "/", { s1 with jar := jar2 }, log1)
  else (.error .tokenExchangeFailed, s1, log1)

lemma atc_set_shape (d : JwtDecoder) (v : String) (jar : CookieJar) :
    AccessTokenCookie.set d v jar = .error .invalidToken ∨
      AccessTokenCookie.set d v jar = .ok { jar with accessToken := some v } := by
  unfold AccessTokenCookie.set
  rcases hd : d v with _ | j
  · exact Or.inl rfl
  · exact Or.inr rfl

lemma rtc_set_shape (d : JwtDecoder) (cc : CookieCrypto) (v : String) (jar : CookieJar) :
    RefreshTokenCookie.set d cc v jar = .error .invalidToken ∨
      RefreshTokenCookie.set d cc v jar = .ok { jar with refreshToken := some (cc.enc v) } := by
  unfold RefreshTokenCookie.set
  rcases hd : d v with _ | j
  · exact Or.inl rfl
  · exact Or.inr rfl

lemma afterToken_log (d : JwtDecoder) (cc : CookieCrypto) (resp : HttpResponse)
    (s1 : OidcState) (log1 : List NetCall) : (afterToken d cc resp s1 log1).2.2 = log1 := by
  unfold afterToken
  split
  · rfl
  · split
    · rcases atc_set_shape d ((resp.body.strField "access_token").getD "") s1.jar with h | h
      · rw [h]
      · rw [h]
        dsimp only
        rcases rtc_set_shape d cc ((resp.body.strField "refresh_token").getD "")
            { s1.jar with accessToken := some ((resp.body.strField "access_token").getD "") }
          with h2 | h2
        · rw [h2]
        · rw [h2]
    · rfl

lemma afterExchange_log (d : JwtDecoder) (cc : CookieCrypto) (resp : HttpResponse)
    (s1 : OidcState) (log1 : List NetCall) : (afterExchange d cc resp s1 log1).2.2 = log1 := by
  unfold afterExchange
  split
  · rcases atc_set_shape d ((resp.body.strField "access_token").getD "") s1.jar with h | h
    · rw [h]
    · rw [h]
      dsimp only
      rcases rtc_set_shape d cc ((resp.body.strField "refresh_token").getD "")
          { s1.jar with accessToken := some ((resp.body.strField "access_token").getD "") }
        with h2 | h2
      · rw [h2]
      · rw [h2]
  · rfl

lemma refresh_noop (cfg : AppConfig) (env : Env) (d : JwtDecoder) (cc : CookieCrypto)
    (s : OidcState) (hf : truthy (RefreshTokenCookie.value cc s.jar) = false) :
    OIDC.refresh cfg env d cc s = (.ok (), s, []) := by
  unfold OIDC.refresh
  dsimp only
  split
  · rfl
  · rename_i hco
    exact absurd hf hco

lemma refresh_unfold_ok (cfg : AppConfig) (env : Env) (d : JwtDecoder) (cc : CookieCrypto)
    (s : OidcState) {cJson : Json} {s1 : OidcState} {glog : List NetCall}
    (ht : truthy (RefreshTokenCookie.value cc s.jar) = true)
    (hgrc : OIDC.getRealmConfig env s = (.ok cJson, s1, glog)) :
    OIDC.refresh cfg env d cc s =
      afterToken d cc env.token s1 (glog ++ [NetCall.tokenPost "refresh_token"]) := by
  unfold OIDC.refresh
  dsimp only
  split
  · rename_i hco
    rw [ht] at hco
    exact absurd hco (by simp)
  · rw [hgrc]
    rfl

lemma refresh_unfold_err (cfg : AppConfig) (env : Env) (d : JwtDecoder) (cc : CookieCrypto)
    (s : OidcState) {e : OidcError} {s1 : OidcState} {glog : List NetCall}
    (ht : truthy (RefreshTokenCookie.value cc s.jar) = true)
    (hgrc : OIDC.getRealmConfig env s = (.error e, s1, glog)) :
    OIDC.refresh cfg env d cc s = (.error e, s1, glog) := by
  unfold OIDC.refresh
  dsimp only
  split
  · rename_i hco
    rw [ht] at hco
    exact absurd hco (by simp)
  · rw [hgrc]

lemma clf_unfold_ok (cfg : AppConfig) (env : Env) (d : JwtDecoder) (cc : CookieCrypto)
    (st code : String) (s : OidcState) (heq : s.jar.authState = some st) {cJson : Json}
    {s1 : OidcState} {glog : List NetCall}
    (hgrc : OIDC.getRealmConfig env s = (.ok cJson, s1, glog)) :
    OIDC.completeLoginFlow cfg env d cc (some st) code s =
      afterExchange d cc env.token s1 (glog ++ [NetCall.tokenPost "authorization_code"]) := by
  unfold OIDC.completeLoginFlow
  dsimp only
  rw [if_pos heq, hgrc]
  rfl

lemma clf_unfold_err (cfg : AppConfig) (env : Env) (d : JwtDecoder) (cc : CookieCrypto)
    (st code : String) (s : OidcState) (heq : s.jar.authState = some st) {e : OidcError}
    {s1 : OidcState} {glog : List NetCall}
    (hgrc : OIDC.getRealmConfig env s = (.error e, s1, glog)) :
    OIDC.completeLoginFlow cfg env d cc (some st) code s = (.error e, s1, glog) := by
  unfold OIDC.completeLoginFlow
  dsimp only
  rw [if_pos heq, hgrc]

lemma grc_ok_of_avail {env : Env} {s : OidcState}
    (hcfg : s.cachedConfig.isSome = true ∨ isRealmConfig env.discovery = true) :
    ∃ cJson s1 glog, OIDC.getRealmConfig env s = (.ok cJson, s1, glog) ∧ s1.jar = s.jar ∧
      (glog = [] ∨ glog = [NetCall.discoveryFetch]) ∧ s1.cachedConfig.isSome = true := by
  rcases hcfg with hc | hv
  · obtain ⟨c, hc'⟩ := Option.isSome_iff_exists.mp hc
    exact ⟨c, s, [], grc_cached hc', rfl, Or.inl rfl, by simp [hc']⟩
  · cases hcache : s.cachedConfig with
    | some c => exact ⟨c, s, [], grc_cached hcache, rfl, Or.inl rfl, by simp [hcache]⟩
    | none => exact ⟨env.discovery, _, _, grc_none_valid hcache hv, rfl, Or.inr rfl, by simp⟩

/-- C7 (amended): `getAccessToken()`: (a) when the access-token cookie holds a
non-empty value it is returned with zero network requests; (b) when it is
absent or empty but a usable refresh token is stored and the realm
configuration is obtainable, exactly one refresh-grant request is sent and any
successfully returned value is the access token stored afterwards; (c) when
neither token cookie is stored, it returns absent with zero network
requests. -/
theorem getAccessToken_behavior (cfg : AppConfig) (env : Env) (d : JwtDecoder)
    (cc : CookieCrypto) (s : OidcState) :
    (truthy s.jar.accessToken = true →
      OIDC.getAccessToken cfg env d cc s = (.ok s.jar.accessToken, s, [])) ∧
    (truthy s.jar.accessToken = false →
      truthy (RefreshTokenCookie.value cc s.jar) = true →
      (s.cachedConfig.isSome = true ∨ isRealmConfig env.discovery = true) →
      ((OIDC.getAccessToken cfg env d cc s).2.2.countP NetCall.isRefreshPost = 1 ∧
        ∀ v, (OIDC.getAccessToken cfg env d cc s).1 = .ok v →
          v = (OIDC.getAccessToken cfg env d cc s).2.1.jar.accessToken)) ∧
    (s.jar.accessToken = none → s.jar.refreshToken = none →
      OIDC.getAccessToken cfg env d cc s = (.ok none, s, [])) := by
  refine ⟨?_, ?_, ?_⟩
  · intro h
    unfold OIDC.getAccessToken
    dsimp only
    split
    · rfl
    · rename_i hco
      exact absurd h hco
  · intro ha ht hcfg
    obtain ⟨cJson, s1, glog, hgrc, hjar, hglog, _⟩ := grc_ok_of_avail hcfg
    have href := refresh_unfold_ok cfg env d cc s ht hgrc
    have hlog := afterToken_log d cc env.token s1 (glog ++ [NetCall.tokenPost "refresh_token"])
    have hcount : (glog ++ [NetCall.tokenPost "refresh_token"]).countP NetCall.isRefreshPost
        = 1 := by
      rcases hglog with rfl | rfl <;> simp [List.countP_append, List.countP_cons,
        NetCall.isRefreshPost]
    unfold OIDC.getAccessToken
    dsimp only
    split
    · rename_i hco
      rw [ha] at hco
      exact absurd hco (by simp)
    · rw [href]
      rcases hat : afterToken d cc env.token s1 (glog ++ [NetCall.tokenPost "refresh_token"])
        with ⟨r2, s2, log2⟩
      rw [hat] at hlog
      dsimp only at hlog
      subst hlog
      cases r2 with
      | error e =>
        dsimp only
        exact ⟨hcount, fun v hv => absurd hv (by simp)⟩
      | ok u =>
        dsimp only
        exact ⟨hcount, fun v hv => (Except.ok.inj hv).symm⟩
  · intro ha hr
    have hf : truthy (RefreshTokenCookie.value cc s.jar) = false := by
      unfold RefreshTokenCookie.value
      rw [hr]
      rfl
    have hnoop := refresh_noop cfg env d cc s hf
    unfold OIDC.getAccessToken
    dsimp only
    split
    · rename_i hco
      rw [ha] at hco
      exact absurd hco (by simp [truthy])
    · rw [hnoop]
      dsimp only
      rw [ha]

/-- A state whose access-token cookie stores the empty string while a valid
refresh token is also stored. -/
def sEmptyAT : OidcState :=
  { jar := { authState := none, accessToken := some "",
             refreshToken := some (cc0.enc "rt") },
    cachedConfig := none }

/-- C7 counterexample.  First part: with the access-token cookie present (but
holding the empty string), `getAccessToken()` does issue network requests —
presence alone does not short-circuit, truthiness does.  Second part: with the
access token absent and a refresh token stored, but the discovery document
invalid, no refresh-grant request is sent at all (the claim requires exactly
one): config retrieval fails first. -/
theorem getAccessToken_counterexample :
    sEmptyAT.jar.accessToken.isSome = true ∧
      (OIDC.getAccessToken cfg0 envGood d0 cc0 sEmptyAT).2.2 ≠ [] ∧
      s0.jar.accessToken = none ∧ s0.jar.refreshToken.isSome = true ∧
      (OIDC.getAccessToken cfg0 envBadDisc d0 cc0 s0).2.2.countP NetCall.isRefreshPost = 0 ∧
      (OIDC.getAccessToken cfg0 envBadDisc d0 cc0 s0).1 = .error .configUnavailable :=
  ⟨rfl, by decide, rfl, rfl, rfl, rfl⟩

/-- A state with a non-empty access token stored. -/
def sHasAT : OidcState :=
  { jar := { authState := none, accessToken := some "tok", refreshToken := none },
    cachedConfig := none }

/-- Witness for C7: all three branches at concrete inputs. -/
theorem getAccessToken_behavior_witness :
    OIDC.getAccessToken cfg0 envGood d0 cc0 sHasAT = (.ok (some "tok"), sHasAT, []) ∧
    (OIDC.getAccessToken cfg0 envGood d0 cc0 s0).2.2.countP NetCall.isRefreshPost = 1 ∧
    OIDC.getAccessToken cfg0 envGood d0 cc0 emptyState = (.ok none, emptyState, []) :=
  ⟨(getAccessToken_behavior cfg0 envGood d0 cc0 sHasAT).1 (by decide),
   ((getAccessToken_behavior cfg0 envGood d0 cc0 s0).2.1 (by decide) (by decide)
     (Or.inr (by decide))).1,
   (getAccessToken_behavior cfg0 envGood d0 cc0 emptyState).2.2 rfl rfl⟩

/-- The token-pair invariant: the access-token cookie is stored only if the
refresh-token cookie is also stored. -/
def PairInv (s : OidcState) : Prop :=
  s.jar.accessToken.isSome = true → s.jar.refreshToken.isSome = true

lemma PairInv_of_jar {s t : OidcState} (h1 : t.jar.accessToken = s.jar.accessToken)
    (h2 : t.jar.refreshToken = s.jar.refreshToken) (hI : PairInv s) : PairInv t := by
  unfold PairInv at hI ⊢
  rw [h1, h2]
  exact hI

lemma afterToken_pair (d : JwtDecoder) (cc : CookieCrypto) (resp : HttpResponse)
    (s1 : OidcState) (log1 : List NetCall) (hInv1 : PairInv s1)
    (hne : (afterToken d cc resp s1 log1).1 ≠ .error .invalidToken) :
    PairInv (afterToken d cc resp s1 log1).2.1 := by
  unfold afterToken
  by_cases hexp : isExpiredSession resp.status resp.body = true
  · rw [if_pos hexp]
    intro h
    simp [OIDC.deleteTokens] at h
  · rw [if_neg hexp]
    by_cases htok : (resp.isOk && isTokens resp.body) = true
    · rw [if_pos htok]
      rcases atc_set_shape d ((resp.body.strField "access_token").getD "") s1.jar with hA | hA
      · exfalso
        apply hne
        unfold afterToken
        rw [if_neg hexp, if_pos htok, hA]
      · rw [hA]
        dsimp only
        rcases rtc_set_shape d cc ((resp.body.strField "refresh_token").getD "")
            { s1.jar with accessToken := some ((resp.body.strField "access_token").getD "") }
          with hR | hR
        · exfalso
          apply hne
          unfold afterToken
          rw [if_neg hexp, if_pos htok, hA]
          dsimp only
          rw [hR]
        · rw [hR]
          intro _
          rfl
    · rw [if_neg htok]
      exact hInv1

lemma afterExchange_pair (d : JwtDecoder) (cc : CookieCrypto) (resp : HttpResponse)
    (s1 : OidcState) (log1 : List NetCall) (hInv1 : PairInv s1)
    (hne : (afterExchange d cc resp s1 log1).1 ≠ .error .invalidToken) :
    PairInv (afterExchange d cc resp s1 log1).2.1 := by
  unfold afterExchange
  by_cases htok : (resp.isOk && isTokens resp.body) = true
  · rw [if_pos htok]
    rcases atc_set_shape d ((resp.body.strField "access_token").getD "") s1.jar with hA | hA
    · exfalso
      apply hne
      unfold afterExchange
      rw [if_pos htok, hA]
    · rw [hA]
      dsimp only
      rcases rtc_set_shape d cc ((resp.body.strField "refresh_token").getD "")
          { s1.jar with accessToken := some ((resp.body.strField "access_token").getD "") }
        with hR | hR
      · exfalso
        apply hne
        unfold afterExchange
        rw [if_pos htok, hA]
        dsimp only
        rw [hR]
      · rw [hR]
        intro _
        rfl
  · rw [if_neg htok]
    exact hInv1

lemma truthy_eq_true_of_ne_false {o : Option String} (h : ¬ truthy o = false) :
    truthy o = true := by
  revert h
  cases truthy o <;> simp

lemma refresh_pair (cfg : AppConfig) (env : Env) (d : JwtDecoder) (cc : CookieCrypto)
    (s : OidcState) (hInv : PairInv s)
    (hne : (OIDC.refresh cfg env d cc s).1 ≠ .error .invalidToken) :
    PairInv (OIDC.refresh cfg env d cc s).2.1 := by
  by_cases hf : truthy (RefreshTokenCookie.value cc s.jar) = false
  · rw [refresh_noop cfg env d cc s hf]
    exact hInv
  · have ht := truthy_eq_true_of_ne_false hf
    rcases hres : OIDC.getRealmConfig env s with ⟨r, s1, glog⟩
    have hj : s1.jar = s.jar := by
      have h' := grc_jar env s
      rw [hres] at h'
      exact h'
    have hInv1 : PairInv s1 := by
      unfold PairInv
      rw [hj]
      exact hInv
    cases r with
    | error e =>
      rw [refresh_unfold_err cfg env d cc s ht hres]
      exact hInv1
    | ok c =>
      rw [refresh_unfold_ok cfg env d cc s ht hres] at hne ⊢
      exact afterToken_pair d cc env.token s1 _ hInv1 hne

lemma clf_mismatch (cfg : AppConfig) (env : Env) (d : JwtDecoder) (cc : CookieCrypto)
    (st code : String) (s : OidcState) (hne : s.jar.authState ≠ some st) :
    OIDC.completeLoginFlow cfg env d cc (some st) code s = (.error .stateMismatch, s, []) := by
  unfold OIDC.completeLoginFlow
  dsimp only
  rw [if_neg hne]

lemma clf_pair (cfg : AppConfig) (env : Env) (d : JwtDecoder) (cc : CookieCrypto)
    (state : Option String) (code : String) (s : OidcState) (hInv : PairInv s)
    (hne : (OIDC.completeLoginFlow cfg env d cc state code s).1 ≠ .error .invalidToken) :
    PairInv (OIDC.completeLoginFlow cfg env d cc state code s).2.1 := by
  cases state with
  | none => exact hInv
  | some st =>
    by_cases heq : s.jar.authState = some st
    · rcases hres : OIDC.getRealmConfig env s with ⟨r, s1, glog⟩
      have hj : s1.jar = s.jar := by
        have h' := grc_jar env s
        rw [hres] at h'
        exact h'
      have hInv1 : PairInv s1 := by
        unfold PairInv
        rw [hj]
        exact hInv
      cases r with
      | error e =>
        rw [clf_unfold_err cfg env d cc st code s heq hres]
        exact hInv1
      | ok c =>
        rw [clf_unfold_ok cfg env d cc st code s heq hres] at hne ⊢
        exact afterExchange_pair d cc env.token s1 _ hInv1 hne
    · rw [clf_mismatch cfg env d cc st code s heq]
      exact hInv

lemma start_state (cfg : AppConfig) (env : Env) (st : String) (s : OidcState) :
    (OIDC.startLoginFlow cfg env st s).2.1 =
      (OIDC.getRealmConfig env { s with jar := { s.jar with authState := some st } }).2.1 := by
  unfold OIDC.startLoginFlow
  dsimp only
  rcases h : OIDC.getRealmConfig env { s with jar := { s.jar with authState := some st } }
    with ⟨r, s2, log⟩
  cases r <;> rfl

lemma start_pair (cfg : AppConfig) (env : Env) (st : String) (s : OidcState)
    (hInv : PairInv s) : PairInv (OIDC.startLoginFlow cfg env st s).2.1 := by
  rw [start_state]
  have hj := grc_jar env { s with jar := { s.jar with authState := some st } }
  unfold PairInv
  rw [hj]
  exact hInv

lemma logout_pair (cfg : AppConfig) (env : Env) (s : OidcState) :
    PairInv (OIDC.logout cfg env s).2.1 := by
  rw [logout_state]
  have hj := grc_jar env { s with jar := OIDC.deleteTokens s.jar }
  unfold PairInv
  rw [hj]
  intro h
  simp [OIDC.deleteTokens] at h

lemma gat_split (cfg : AppConfig) (env : Env) (d : JwtDecoder) (cc : CookieCrypto)
    (s : OidcState) :
    OIDC.getAccessToken cfg env d cc s = (.ok s.jar.accessToken, s, []) ∨
      ((OIDC.getAccessToken cfg env d cc s).2.1 = (OIDC.refresh cfg env d cc s).2.1 ∧
        (OIDC.getAccessToken cfg env d cc s).2.2 = (OIDC.refresh cfg env d cc s).2.2 ∧
        ((OIDC.getAccessToken cfg env d cc s).1 = .error .invalidToken ↔
          (OIDC.refresh cfg env d cc s).1 = .error .invalidToken)) := by
  unfold OIDC.getAccessToken
  dsimp only
  split
  · exact Or.inl rfl
  · right
    rcases hr : OIDC.refresh cfg env d cc s with ⟨r, s1, log⟩
    cases r <;> exact ⟨rfl, rfl, by simp⟩

lemma gat_pair (cfg : AppConfig) (env : Env) (d : JwtDecoder) (cc : CookieCrypto)
    (s : OidcState) (hInv : PairInv s)
    (hne : (OIDC.getAccessToken cfg env d cc s).1 ≠ .error .invalidToken) :
    PairInv (OIDC.getAccessToken cfg env d cc s).2.1 := by
  rcases gat_split cfg env d cc s with h | ⟨hst, _, hiff⟩
  · rw [h]
    exact hInv
  · rw [hst]
    exact refresh_pair cfg env d cc s hInv (fun hc => hne (hiff.mpr hc))

lemma errOf_ne {α : Type} {r : Except OidcError α} {e : OidcError}
    (h : errOf r ≠ some e) : r ≠ .error e := by
  intro hr
  exact h (by rw [hr]; rfl)

/-- C9 (amended): from a fresh instance, after every operation that does not
fail with the token-decode error, the pair invariant holds — the access-token
cookie is stored only if the refresh-token cookie is also stored, and clearing
deletes both.  (When a write fails mid-pair the invariant can break: see the
counterexample.) -/
theorem token_pair_invariant :
    PairInv emptyState ∧
      ∀ cfg d cc env op s, PairInv s →
        (runOp cfg d cc env op s).2.2 ≠ some .invalidToken →
        PairInv (runOp cfg d cc env op s).1 := by
  constructor
  · intro h
    simp [emptyState] at h
  · intro cfg d cc env op s hInv hne
    cases op with
    | start st =>
      unfold runOp at hne ⊢
      dsimp only at hne ⊢
      exact start_pair cfg env st s hInv
    | complete state code =>
      unfold runOp at hne ⊢
      dsimp only at hne ⊢
      exact clf_pair cfg env d cc state code s hInv (errOf_ne hne)
    | doRefresh =>
      unfold runOp at hne ⊢
      dsimp only at hne ⊢
      exact refresh_pair cfg env d cc s hInv (errOf_ne hne)
    | doLogout =>
      unfold runOp at hne ⊢
      dsimp only at hne ⊢
      exact logout_pair cfg env s
    | getTok =>
      unfold runOp at hne ⊢
      dsimp only at hne ⊢
      exact gat_pair cfg env d cc s hInv (errOf_ne hne)

/-- The state reached from a fresh instance by `startLoginFlow` (with state
token `"st"`) against a valid provider. -/
def sAwaitC : OidcState :=
  { jar := { authState := some "st", accessToken := none, refreshToken := none },
    cachedConfig := some goodConfigJson }

/-- C9 counterexample: from a reachable state (right after `startLoginFlow`),
a `completeLoginFlow` against a provider returning a schema-valid token pair
whose refresh token is not a decodable JWT leaves the access-token cookie
stored and the refresh-token cookie absent — one token without the other. -/
theorem token_pair_partial_write_counterexample :
    (runOp cfg0 d0 cc0 envGood (.start "st") emptyState).1 = sAwaitC ∧
      PairInv sAwaitC ∧
      (runOp cfg0 d0 cc0 envBadTok (.complete (some "st") "c") sAwaitC).2.2 =
        some .invalidToken ∧
      (runOp cfg0 d0 cc0 envBadTok (.complete (some "st") "c") sAwaitC).1.jar.accessToken =
        some "at1" ∧
      (runOp cfg0 d0 cc0 envBadTok (.complete (some "st") "c") sAwaitC).1.jar.refreshToken =
        none := by
  refine ⟨rfl, ?_, rfl, rfl, rfl⟩
  intro h
  simp [sAwaitC] at h

/-- Witness for C9: the invariant holds initially and is preserved by a
concrete successful refresh. -/
theorem token_pair_invariant_witness :
    PairInv emptyState ∧ PairInv (runOp cfg0 d0 cc0 envGood .doRefresh s0).1 :=
  ⟨token_pair_invariant.1,
   token_pair_invariant.2 cfg0 d0 cc0 envGood .doRefresh s0
     (by intro h; simp [s0] at h) (by decide)⟩

lemma afterToken_cache (d : JwtDecoder) (cc : CookieCrypto) (resp : HttpResponse)
    (s1 : OidcState) (log1 : List NetCall) :
    (afterToken d cc resp s1 log1).2.1.cachedConfig = s1.cachedConfig := by
  unfold afterToken
  split
  · rfl
  · split
    · rcases atc_set_shape d ((resp.body.strField "access_token").getD "") s1.jar with h | h
      · rw [h]
      · rw [h]
        dsimp only
        rcases rtc_set_shape d cc ((resp.body.strField "refresh_token").getD "")
            { s1.jar with accessToken := some ((resp.body.strField "access_token").getD "") }
          with h2 | h2
        · rw [h2]
        · rw [h2]
    · rfl

lemma afterExchange_cache (d : JwtDecoder) (cc : CookieCrypto) (resp : HttpResponse)
    (s1 : OidcState) (log1 : List NetCall) :
    (afterExchange d cc resp s1 log1).2.1.cachedConfig = s1.cachedConfig := by
  unfold afterExchange
  split
  · rcases atc_set_shape d ((resp.body.strField "access_token").getD "") s1.jar with h | h
    · rw [h]
    · rw [h]
      dsimp only
      rcases rtc_set_shape d cc ((resp.body.strField "refresh_token").getD "")
          { s1.jar with accessToken := some ((resp.body.strField "access_token").getD "") }
        with h2 | h2
      · rw [h2]
      · rw [h2]
  · rfl

lemma grc_cached_facts {env : Env} {s : OidcState} (hc : s.cachedConfig.isSome = true) :
    (OIDC.getRealmConfig env s).2.2 = [] ∧
      (OIDC.getRealmConfig env s).2.1.cachedConfig = s.cachedConfig := by
  obtain ⟨c, hc'⟩ := Option.isSome_iff_exists.mp hc
  rw [grc_cached hc']
  exact ⟨rfl, rfl⟩

lemma grc_valid_facts {env : Env} {s : OidcState} (hv : isRealmConfig env.discovery = true) :
    discCount (OIDC.getRealmConfig env s).2.2 ≤ 1 ∧
      (OIDC.getRealmConfig env s).2.1.cachedConfig.isSome = true := by
  cases hc : s.cachedConfig with
  | some c =>
    rw [grc_cached hc]
    refine ⟨by simp [discCount], ?_⟩
    rw [hc]
    rfl
  | none =>
    rw [grc_none_valid hc hv]
    refine ⟨?_, rfl⟩
    dsimp only
    decide

lemma refresh_facts (cfg : AppConfig) (env : Env) (d : JwtDecoder) (cc : CookieCrypto)
    (s : OidcState) :
    (discCount (OIDC.refresh cfg env d cc s).2.2 = 0 ∧
      (OIDC.refresh cfg env d cc s).2.1.cachedConfig = s.cachedConfig) ∨
    (discCount (OIDC.refresh cfg env d cc s).2.2 =
        discCount (OIDC.getRealmConfig env s).2.2 ∧
      (OIDC.refresh cfg env d cc s).2.1.cachedConfig =
        (OIDC.getRealmConfig env s).2.1.cachedConfig) := by
  by_cases hf : truthy (RefreshTokenCookie.value cc s.jar) = false
  · left
    rw [refresh_noop cfg env d cc s hf]
    exact ⟨rfl, rfl⟩
  · right
    have ht := truthy_eq_true_of_ne_false hf
    cases hc : s.cachedConfig with
    | some c =>
      rw [grc_cached hc, refresh_unfold_ok cfg env d cc s ht (grc_cached hc)]
      refine ⟨?_, ?_⟩
      · rw [afterToken_log]
        simp [discCount, NetCall.isDiscovery]
      · rw [afterToken_cache]
    | none =>
      by_cases hv : isRealmConfig env.discovery = true
      · rw [grc_none_valid hc hv,
          refresh_unfold_ok cfg env d cc s ht (grc_none_valid hc hv)]
        refine ⟨?_, ?_⟩
        · rw [afterToken_log]
          simp [discCount, List.countP_append, NetCall.isDiscovery]
        · rw [afterToken_cache]
      · have hv' : isRealmConfig env.discovery = false := by
          revert hv
          cases isRealmConfig env.discovery <;> simp
        rw [grc_none_invalid hc hv',
          refresh_unfold_err cfg env d cc s ht (grc_none_invalid hc hv')]
        exact ⟨rfl, rfl⟩

lemma clf_null (cfg : AppConfig) (env : Env) (d : JwtDecoder) (cc : CookieCrypto)
    (code : String) (s : OidcState) :
    OIDC.completeLoginFlow cfg env d cc none code s = (.error .stateMismatch, s, []) := rfl

lemma clf_facts (cfg : AppConfig) (env : Env) (d : JwtDecoder) (cc : CookieCrypto)
    (state : Option String) (code : String) (s : OidcState) :
    (discCount (OIDC.completeLoginFlow cfg env d cc state code s).2.2 = 0 ∧
      (OIDC.completeLoginFlow cfg env d cc state code s).2.1.cachedConfig = s.cachedConfig) ∨
    (discCount (OIDC.completeLoginFlow cfg env d cc state code s).2.2 =
        discCount (OIDC.getRealmConfig env s).2.2 ∧
      (OIDC.completeLoginFlow cfg env d cc state code s).2.1.cachedConfig =
        (OIDC.getRealmConfig env s).2.1.cachedConfig) := by
  cases state with
  | none =>
    left
    rw [clf_null]
    exact ⟨rfl, rfl⟩
  | some st =>
    by_cases heq : s.jar.authState = some st
    · right
      cases hc : s.cachedConfig with
      | some c =>
        rw [grc_cached hc, clf_unfold_ok cfg env d cc st code s heq (grc_cached hc)]
        refine ⟨?_, ?_⟩
        · rw [afterExchange_log]
          simp [discCount, NetCall.isDiscovery]
        · rw [afterExchange_cache]
      | none =>
        by_cases hv : isRealmConfig env.discovery = true
        · rw [grc_none_valid hc hv,
            clf_unfold_ok cfg env d cc st code s heq (grc_none_valid hc hv)]
          refine ⟨?_, ?_⟩
          · rw [afterExchange_log]
            simp [discCount, List.countP_append, NetCall.isDiscovery]
          · rw [afterExchange_cache]
        · have hv' : isRealmConfig env.discovery = false := by
            revert hv
            cases isRealmConfig env.discovery <;> simp
          rw [grc_none_invalid hc hv',
            clf_unfold_err cfg env d cc st code s heq (grc_none_invalid hc hv')]
          exact ⟨rfl, rfl⟩
    · left
      rw [clf_mismatch cfg env d cc st code s heq]
      exact ⟨rfl, rfl⟩

lemma gat_facts (cfg : AppConfig) (env : Env) (d : JwtDecoder) (cc : CookieCrypto)
    (s : OidcState) :
    (discCount (OIDC.getAccessToken cfg env d cc s).2.2 = 0 ∧
      (OIDC.getAccessToken cfg env d cc s).2.1.cachedConfig = s.cachedConfig) ∨
    (discCount (OIDC.getAccessToken cfg env d cc s).2.2 =
        discCount (OIDC.getRealmConfig env s).2.2 ∧
      (OIDC.getAccessToken cfg env d cc s).2.1.cachedConfig =
        (OIDC.getRealmConfig env s).2.1.cachedConfig) := by
  rcases gat_split cfg env d cc s with h | ⟨hst, hlog, _⟩
  · left
    rw [h]
    exact ⟨rfl, rfl⟩
  · rcases refresh_facts cfg env d cc s with ⟨h1, h2⟩ | ⟨h1, h2⟩
    · left
      exact ⟨by rw [hlog]; exact h1, by rw [hst]; exact h2⟩
    · right
      exact ⟨by rw [hlog]; exact h1, by rw [hst]; exact h2⟩

lemma start_log (cfg : AppConfig) (env : Env) (st : String) (s : OidcState) :
    (OIDC.startLoginFlow cfg env st s).2.2 =
      (OIDC.getRealmConfig env { s with jar := { s.jar with authState := some st } }).2.2 := by
  unfold OIDC.startLoginFlow
  dsimp only
  rcases h : OIDC.getRealmConfig env { s with jar := { s.jar with authState := some st } }
    with ⟨r, s2, log⟩
  cases r <;> rfl

lemma logout_log (cfg : AppConfig) (env : Env) (s : OidcState) :
    (OIDC.logout cfg env s).2.2 =
      (OIDC.getRealmConfig env { s with jar := OIDC.deleteTokens s.jar }).2.2 := by
  unfold OIDC.logout
  dsimp only
  rcases h : OIDC.getRealmConfig env { s with jar := OIDC.deleteTokens s.jar }
    with ⟨r, s2, log⟩
  cases r <;> rfl

lemma runOp_facts (cfg : AppConfig) (d : JwtDecoder) (cc : CookieCrypto) (env : Env)
    (op : Op) (s : OidcState) :
    (discCount (runOp cfg d cc env op s).2.1 = 0 ∧
      (runOp cfg d cc env op s).1.cachedConfig = s.cachedConfig) ∨
    ∃ sPre : OidcState, sPre.cachedConfig = s.cachedConfig ∧
      discCount (runOp cfg d cc env op s).2.1 = discCount (OIDC.getRealmConfig env sPre).2.2 ∧
      (runOp cfg d cc env op s).1.cachedConfig =
        (OIDC.getRealmConfig env sPre).2.1.cachedConfig := by
  cases op with
  | start st =>
    right
    refine ⟨{ s with jar := { s.jar with authState := some st } }, rfl, ?_, ?_⟩
    · unfold runOp
      dsimp only
      rw [start_log]
    · unfold runOp
      dsimp only
      rw [start_state]
  | doLogout =>
    right
    refine ⟨{ s with jar := OIDC.deleteTokens s.jar }, rfl, ?_, ?_⟩
    · unfold runOp
      dsimp only
      rw [logout_log]
    · unfold runOp
      dsimp only
      rw [logout_state]
  | doRefresh =>
    rcases refresh_facts cfg env d cc s with ⟨h1, h2⟩ | ⟨h1, h2⟩
    · left
      constructor
      · unfold runOp
        dsimp only
        exact h1
      · unfold runOp
        dsimp only
        exact h2
    · right
      refine ⟨s, rfl, ?_, ?_⟩
      · unfold runOp
        dsimp only
        exact h1
      · unfold runOp
        dsimp only
        exact h2
  | complete state code =>
    rcases clf_facts cfg env d cc state code s with ⟨h1, h2⟩ | ⟨h1, h2⟩
    · left
      constructor
      · unfold runOp
        dsimp only
        exact h1
      · unfold runOp
        dsimp only
        exact h2
    · right
      refine ⟨s, rfl, ?_, ?_⟩
      · unfold runOp
        dsimp only
        exact h1
      · unfold runOp
        dsimp only
        exact h2
  | getTok =>
    rcases gat_facts cfg env d cc s with ⟨h1, h2⟩ | ⟨h1, h2⟩
    · left
      constructor
      · unfold runOp
        dsimp only
        exact h1
      · unfold runOp
        dsimp only
        exact h2
    · right
      refine ⟨s, rfl, ?_, ?_⟩
      · unfold runOp
        dsimp only
        exact h1
      · unfold runOp
        dsimp only
        exact h2

lemma runOp_disc_cached (cfg : AppConfig) (d : JwtDecoder) (cc : CookieCrypto) (env : Env)
    (op : Op) (s : OidcState) (hc : s.cachedConfig.isSome = true) :
    discCount (runOp cfg d cc env op s).2.1 = 0 ∧
      (runOp cfg d cc env op s).1.cachedConfig.isSome = true := by
  rcases runOp_facts cfg d cc env op s with ⟨h1, h2⟩ | ⟨sPre, hpre, h1, h2⟩
  · exact ⟨h1, by rw [h2]; exact hc⟩
  · have hcp : sPre.cachedConfig.isSome = true := by rw [hpre]; exact hc
    obtain ⟨hl, hcc⟩ := grc_cached_facts hcp
    refine ⟨?_, ?_⟩
    · rw [h1, hl]
      rfl
    · rw [h2, hcc, hpre]
      exact hc

lemma runOp_disc_valid (cfg : AppConfig) (d : JwtDecoder) (cc : CookieCrypto) (env : Env)
    (op : Op) (s : OidcState) (hv : isRealmConfig env.discovery = true) :
    discCount (runOp cfg d cc env op s).2.1 ≤ 1 ∧
      (1 ≤ discCount (runOp cfg d cc env op s).2.1 →
        (runOp cfg d cc env op s).1.cachedConfig.isSome = true) := by
  rcases runOp_facts cfg d cc env op s with ⟨h1, h2⟩ | ⟨sPre, hpre, h1, h2⟩
  · rw [h1]
    exact ⟨by omega, fun h => absurd h (by omega)⟩
  · obtain ⟨hle, hsome⟩ := grc_valid_facts (s := sPre) hv
    rw [h1, h2]
    exact ⟨hle, fun _ => hsome⟩

lemma runTrace_cached (cfg : AppConfig) (d : JwtDecoder) (cc : CookieCrypto)
    (tr : List (Op × Env)) : ∀ s : OidcState, s.cachedConfig.isSome = true →
    (runTrace cfg d cc tr s).2 = 0 ∧ (runTrace cfg d cc tr s).1.cachedConfig.isSome = true := by
  induction tr with
  | nil => exact fun s hc => ⟨rfl, hc⟩
  | cons p rest ih =>
    intro s hc
    rcases p with ⟨op, env⟩
    obtain ⟨h0, hc'⟩ := runOp_disc_cached cfg d cc env op s hc
    obtain ⟨ih0, ihc⟩ := ih (runOp cfg d cc env op s).1 hc'
    unfold runTrace
    dsimp only
    constructor
    · rw [h0, ih0]
    · exact ihc

lemma runTrace_count_le_one (cfg : AppConfig) (d : JwtDecoder) (cc : CookieCrypto)
    (tr : List (Op × Env)) : ∀ s : OidcState,
    (∀ p ∈ tr, isRealmConfig (Prod.snd p).discovery = true) →
    (runTrace cfg d cc tr s).2 ≤ 1 := by
  induction tr with
  | nil =>
    intro s _
    exact Nat.zero_le 1
  | cons p rest ih =>
    intro s hv
    rcases p with ⟨op, env⟩
    have hvenv : isRealmConfig env.discovery = true := hv (op, env) (by simp)
    have hvrest : ∀ q ∈ rest, isRealmConfig (Prod.snd q).discovery = true :=
      fun q hq => hv q (by simp [hq])
    obtain ⟨hle, himp⟩ := runOp_disc_valid cfg d cc env op s hvenv
    unfold runTrace
    dsimp only
    rcases Nat.lt_or_ge (discCount (runOp cfg d cc env op s).2.1) 1 with h0 | h1
    · have h0' : discCount (runOp cfg d cc env op s).2.1 = 0 := by omega
      rw [h0']
      have := ih (runOp cfg d cc env op s).1 hvrest
      omega
    · have hsome := himp h1
      obtain ⟨hz, _⟩ := runTrace_cached cfg d cc rest (runOp cfg d cc env op s).1 hsome
      rw [hz]
      omega

/-- C8 (amended): realm-configuration retrieval treats a discovery response in
which any of the fields `authorization_endpoint`, `token_endpoint` or
`end_session_endpoint` is missing or not a string as a schema failure
(`ConfigUnavailable`); `issuer` is not among the validated fields (see the
counterexample).  A validated configuration is memoized for the lifetime of
the instance: across any sequence of operations against valid discovery
responses, at most one discovery fetch is made. -/
theorem realm_config_validation_and_memo :
    (∀ env s, s.cachedConfig = none → isRealmConfig env.discovery = false →
      OIDC.getRealmConfig env s = (.error .configUnavailable, s, [.discoveryFetch])) ∧
    (∀ (j : Json) (k : String),
      (k = "authorization_endpoint" ∨ k = "token_endpoint" ∨ k = "end_session_endpoint") →
      j.strField k = none → isRealmConfig j = false) ∧
    (∀ cfg d cc (tr : List (Op × Env)) (s : OidcState),
      (∀ p ∈ tr, isRealmConfig (Prod.snd p).discovery = true) →
      (runTrace cfg d cc tr s).2 ≤ 1) := by
  refine ⟨fun env s h hv => grc_none_invalid h hv, ?_, ?_⟩
  · intro j k hk hf
    unfold isRealmConfig hasStrField
    rcases hk with rfl | rfl | rfl <;> rw [hf] <;> simp
  · intro cfg d cc tr s hv
    exact runTrace_count_le_one cfg d cc tr s hv

/-- C8 counterexample: the checked discovery document `goodConfigJson` has no
`issuer` field at all, yet `isRealmConfig` accepts it and `getRealmConfig`
memoizes it instead of failing with `ConfigUnavailable` — `issuer` is not a
validated required field. -/
theorem realm_config_issuer_not_checked_counterexample :
    goodConfigJson.strField "issuer" = none ∧ isRealmConfig goodConfigJson = true ∧
      OIDC.getRealmConfig envGood emptyState =
        (.ok goodConfigJson, { emptyState with cachedConfig := some goodConfigJson },
          [.discoveryFetch]) :=
  ⟨rfl, rfl, rfl⟩

/-- Witness for C8: schema failure, field check, and a concrete three-step
trace with at most one discovery fetch. -/
theorem realm_config_validation_and_memo_witness :
    OIDC.getRealmConfig envBadDisc s0 = (.error .configUnavailable, s0, [.discoveryFetch]) ∧
    isRealmConfig (Json.obj [("authorization_endpoint", Json.str "a")]) = false ∧
    (runTrace cfg0 d0 cc0
      [(.doRefresh, envGood), (.doLogout, envGood), (.start "st", envGood)] emptyState).2 ≤
      1 :=
  ⟨realm_config_validation_and_memo.1 envBadDisc s0 rfl (by decide),
   realm_config_validation_and_memo.2.1 (Json.obj [("authorization_endpoint", Json.str "a")])
     "token_endpoint" (Or.inr (Or.inl rfl)) rfl,
   realm_config_validation_and_memo.2.2 cfg0 d0 cc0
     [(.doRefresh, envGood), (.doLogout, envGood), (.start "st", envGood)] emptyState
     (by decide)⟩

lemma decodeIfTruthy_error {d : JwtDecoder} {v : Option String} {e : OidcError}
    (h : decodeIfTruthy d v = .error e) : e = .invalidToken := by
  cases v with
  | none => exact absurd h (by simp [decodeIfTruthy])
  | some x =>
    unfold decodeIfTruthy at h
    dsimp only at h
    by_cases hx : x = ""
    · rw [if_pos hx] at h
      exact absurd h (by simp)
    · rw [if_neg hx] at h
      cases hd : d x <;> rw [hd] at h
      · exact (Except.error.inj h).symm
      · exact absurd h (by simp)

/-- C10 (amended): both cookie write paths decode the token value as a JWT
before storing and therefore throw on every non-decodable token string, so
`completeLoginFlow` and a token-storing `refresh` can only succeed when both
returned tokens are decodable; `getExpirations()` throws when a stored
non-empty token value (for the refresh slot: its decrypted value) is not a
decodable JWT.  (A stored empty string is skipped by the truthiness guard
and does not throw: see the counterexample.) -/
theorem token_writes_require_decodable_jwt (d : JwtDecoder) (cc : CookieCrypto) :
    (∀ v jar, d v = none →
      AccessTokenCookie.set d v jar = .error .invalidToken ∧
      RefreshTokenCookie.set d cc v jar = .error .invalidToken) ∧
    (∀ jar t, jar.accessToken = some t → t ≠ "" → d t = none →
      OIDC.getExpirations d cc jar = .error .invalidToken) ∧
    (∀ jar t, RefreshTokenCookie.value cc jar = some t → t ≠ "" → d t = none →
      OIDC.getExpirations d cc jar = .error .invalidToken) ∧
    (∀ cfg env state code s res s' log,
      OIDC.completeLoginFlow cfg env d cc state code s = (.ok res, s', log) →
      (d ((env.token.body.strField "access_token").getD "")).isSome = true ∧
      (d ((env.token.body.strField "refresh_token").getD "")).isSome = true) ∧
    (∀ cfg env s s' log,
      truthy (RefreshTokenCookie.value cc s.jar) = true →
      env.token.isOk = true → isTokens env.token.body = true →
      OIDC.refresh cfg env d cc s = (.ok (), s', log) →
      (d ((env.token.body.strField "access_token").getD "")).isSome = true ∧
      (d ((env.token.body.strField "refresh_token").getD "")).isSome = true) := by
  refine ⟨?_, ?_, ?_, ?_, ?_⟩
  · intro v jar hd
    constructor
    · unfold AccessTokenCookie.set
      rw [hd]
    · unfold RefreshTokenCookie.set
      rw [hd]
  · intro jar t hat ht hd
    unfold OIDC.getExpirations decodeIfTruthy
    rw [hat]
    dsimp only
    rw [if_neg ht, hd]
  · intro jar t hrt ht hd
    unfold OIDC.getExpirations
    cases hA : decodeIfTruthy d jar.accessToken with
    | error e =>
      rw [decodeIfTruthy_error hA]
    | ok atJwt =>
      dsimp only
      unfold decodeIfTruthy
      rw [hrt]
      dsimp only
      rw [if_neg ht, hd]
  · intro cfg env state code s res s' log hok
    cases state with
    | none => exact absurd hok (by simp [clf_null])
    | some st =>
      by_cases heq : s.jar.authState = some st
      · rcases hres : OIDC.getRealmConfig env s with ⟨r, s1, glog⟩
        cases r with
        | error e =>
          rw [clf_unfold_err cfg env d cc st code s heq hres] at hok
          exact absurd hok (by simp)
        | ok c =>
          rw [clf_unfold_ok cfg env d cc st code s heq hres] at hok
          unfold afterExchange at hok
          split at hok
          · rcases atc_set_shape d ((env.token.body.strField "access_token").getD "") s1.jar
              with hA | hA
            · rw [hA] at hok
              exact absurd hok (by simp)
            · rw [hA] at hok
              dsimp only at hok
              rcases rtc_set_shape d cc ((env.token.body.strField "refresh_token").getD "")
                  { s1.jar with
                    accessToken := some ((env.token.body.strField "access_token").getD "") }
                with hR | hR
              · rw [hR] at hok
                exact absurd hok (by simp)
              · obtain ⟨_, ⟨ja, hja⟩⟩ := atc_set_ok hA
                obtain ⟨_, ⟨jr, hjr⟩⟩ := rtc_set_ok hR
                exact ⟨by rw [hja]; rfl, by rw [hjr]; rfl⟩
          · exact absurd hok (by simp)
      · rw [clf_mismatch cfg env d cc st code s heq] at hok
        exact absurd hok (by simp)
  · intro cfg env s s' log ht hok htok hrefresh
    rcases hres : OIDC.getRealmConfig env s with ⟨r, s1, glog⟩
    cases r with
    | error e =>
      rw [refresh_unfold_err cfg env d cc s ht hres] at hrefresh
      have : Except.error (ε := OidcError) (α := Unit) e = .ok () :=
        congrArg Prod.fst hrefresh
      exact absurd this (by simp)
    | ok c =>
      rw [refresh_unfold_ok cfg env d cc s ht hres] at hrefresh
      unfold afterToken at hrefresh
      rw [if_neg (by simp [isOk_not_expired hok]), if_pos (by simp [hok, htok])] at hrefresh
      rcases atc_set_shape d ((env.token.body.strField "access_token").getD "") s1.jar
        with hA | hA
      · rw [hA] at hrefresh
        exact absurd hrefresh (by simp)
      · rw [hA] at hrefresh
        dsimp only at hrefresh
        rcases rtc_set_shape d cc ((env.token.body.strField "refresh_token").getD "")
            { s1.jar with
              accessToken := some ((env.token.body.strField "access_token").getD "") }
          with hR | hR
        · rw [hR] at hrefresh
          exact absurd hrefresh (by simp)
        · obtain ⟨_, ⟨ja, hja⟩⟩ := atc_set_ok hA
          obtain ⟨_, ⟨jr, hjr⟩⟩ := rtc_set_ok hR
          exact ⟨by rw [hja]; rfl, by rw [hjr]; rfl⟩

/-- C10 counterexample: with the access-token cookie storing the empty string
(not a decodable JWT — `d0 "" = none`), `getExpirations()` returns normally
instead of raising: the truthiness guard skips the decode for empty values. -/
theorem getExpirations_empty_token_counterexample :
    d0 "" = none ∧
      OIDC.getExpirations d0 cc0
        { authState := none, accessToken := some "", refreshToken := none } =
        .ok (none, none) :=
  ⟨rfl, rfl⟩

/-- Witness for C10: failing writes, a throwing `getExpirations`, and the
decodability of the tokens accepted by a successful flow. -/
theorem token_writes_require_decodable_jwt_witness :
    (AccessTokenCookie.set d0 "bad" emptyState.jar = .error .invalidToken ∧
      RefreshTokenCookie.set d0 cc0 "bad" emptyState.jar = .error .invalidToken) ∧
    OIDC.getExpirations d0 cc0
      { authState := none, accessToken := some "bad", refreshToken := none } =
      .error .invalidToken ∧
    ((d0 ((envGood.token.body.strField "access_token").getD "")).isSome = true ∧
      (d0 ((envGood.token.body.strField "refresh_token").getD "")).isSome = true) :=
  ⟨(token_writes_require_decodable_jwt d0 cc0).1 "bad" emptyState.jar rfl,
   (token_writes_require_decodable_jwt d0 cc0).2.1
     { authState := none, accessToken := some "bad", refreshToken := none } "bad" rfl
     (by decide) rfl,
   (token_writes_require_decodable_jwt d0 cc0).2.2.2.2 cfg0 envGood s0
     (OIDC.refresh cfg0 envGood d0 cc0 s0).2.1 (OIDC.refresh cfg0 envGood d0 cc0 s0).2.2
     (by decide) rfl rfl (by rfl)⟩
